import Mathlib

/-!
# Verification of cgtcalc-data-transformer

Shallow embedding of the JavaScript sources of `cgtcalc-data-transformer`
(broker-export parsers, formatter and merge/dedup/sort pipeline) together
with proofs about the embedded definitions.

Conventions of the embedding:
* JavaScript runtime values that flow through the parsers are modelled by
  `JsV` (strings, numbers, `null`, `undefined`, booleans).  JavaScript
  numbers are modelled by exact rationals plus explicit `nan` / infinity
  tags; the IEEE-754 rounding of a parsed literal is out of scope (every
  concrete input used in a proof parses exactly).
* Fallible code (a `throw`) is modelled with `Except String`.
* A CSV row (a plain JS object) is an association list from column name to
  cell string; an absent column is `undefined` (here: `Option.none`).
* `Array.prototype.sort` is modelled by a stable insertion sort in the
  `Except` monad: the comparator is invoked on pairs exactly as a real
  comparison sort does (never on a list of fewer than two elements), and a
  comparator exception aborts the whole sort.
-/

set_option maxHeartbeats 1000000
set_option linter.unnecessarySeqFocus false
set_option linter.unreachableTactic false
set_option linter.unusedTactic false
set_option linter.unnecessarySimpa false

deriving instance DecidableEq for Except

namespace CgtData

/-- An exact decimal number: the value `m / 10 ^ e`, kept canonical (no
trailing zero in `m` while `e > 0`).  Every number this program computes
with is such a decimal, and on them this model is exact; IEEE-754 rounding
is out of scope. -/
structure Dec where
  m : ℤ
  e : ℕ
deriving DecidableEq, Repr

/-- `10 ^ n` over ℤ, structurally (kernel-evaluable). -/
def ipow10 : ℕ → ℤ
  | 0 => 1
  | n + 1 => 10 * ipow10 n

/-- Normalize a decimal: strip factors of ten from the mantissa into the
exponent. -/
def decNorm : ℤ → ℕ → Dec
  | m, 0 => ⟨m, 0⟩
  | m, e + 1 => if m % 10 = 0 then decNorm (m / 10) e else ⟨m, e + 1⟩

namespace Dec

/-- Addition of decimals (align exponents, re-normalize). -/
def add (a b : Dec) : Dec :=
  let E := max a.e b.e
  decNorm (a.m * ipow10 (E - a.e) + b.m * ipow10 (E - b.e)) E

/-- Decimal rendering, as JavaScript prints these values (plain notation;
the exponential notation JavaScript switches to for very large or small
magnitudes is outside the modelled range). -/
def toStr (d : Dec) : String :=
  if d.e = 0 then toString d.m
  else
    let sgn := if d.m < 0 then "-" else ""
    let ds := toString d.m.natAbs
    let ds := if ds.length ≤ d.e then (⟨List.replicate (d.e + 1 - ds.length) '0' ++ ds.data⟩ : String) else ds
    sgn ++ (⟨ds.data.take (ds.length - d.e)⟩ : String) ++ "." ++ (⟨ds.data.drop (ds.length - d.e)⟩ : String)

end Dec

/-- JavaScript runtime values as they appear in this code base. -/
inductive JsV where
  | str (s : String)
  | num (d : Dec)
  | nan
  | inf (neg : Bool)
  | null
  | undef
  | bool (b : Bool)
deriving DecidableEq, Repr

/-- A whole-number value. -/
def JsV.int (n : ℤ) : JsV := .num ⟨n, 0⟩

namespace JsV

/-- JavaScript truthiness (`!v` is `!truthy v`). -/
def truthy : JsV → Bool
  | .str s => s ≠ ""
  | .num d => d.m ≠ 0
  | .nan => false
  | .inf _ => true
  | .null => false
  | .undef => false
  | .bool b => b

/-- `typeof v === 'string'`. -/
def isStr : JsV → Bool
  | .str _ => true
  | _ => false

/-- `v` is a non-empty string: the guard `!str || typeof str !== 'string'`
of the email decoders is false exactly on these values. -/
def isNonEmptyStr : JsV → Bool
  | .str s => s ≠ ""
  | _ => false

/-- JavaScript `isFinite` on a (model) number. -/
def isFiniteNum : JsV → Bool
  | .num _ => true
  | _ => false

/-- JavaScript `Number.isNaN`. -/
def isNaNNum : JsV → Bool
  | .nan => true
  | _ => false

/-- `Math.abs` on a number value. -/
def jsAbs : JsV → JsV
  | .num d => .num ⟨|d.m|, d.e⟩
  | .inf _ => .inf false
  | v => v

/-- `x || 0` applied to a number value (NaN and `0` are falsy). -/
def orZero : JsV → JsV
  | .nan => .int 0
  | .num d => if d.m = 0 then .int 0 else .num d
  | .inf n => .inf n
  | v => v

/-- Addition of two number values (used only for fee sums). -/
def jsAdd : JsV → JsV → JsV
  | .num a, .num b => .num (a.add b)
  | .inf a, .inf b => if a = b then .inf a else .nan
  | .inf a, .num _ => .inf a
  | .num _, .inf b => .inf b
  | _, _ => .nan

/-- `v > 0` with JavaScript comparison semantics (`NaN > 0` is false). -/
def gtZero : JsV → Bool
  | .num d => 0 < d.m
  | .inf neg => !neg
  | _ => false

/-- `v < 0` with JavaScript comparison semantics. -/
def ltZero : JsV → Bool
  | .num d => d.m < 0
  | .inf neg => neg
  | _ => false

/-- `v === 0`. -/
def eqZero : JsV → Bool
  | .num d => d.m = 0
  | _ => false

/-- `v <= 0` with JavaScript comparison semantics (`NaN <= 0` is false). -/
def leZero : JsV → Bool
  | .num d => d.m ≤ 0
  | .inf neg => neg
  | _ => false

/-- The value is a strictly positive finite number. -/
def isPosNum : JsV → Bool
  | .num d => 0 < d.m
  | _ => false

/-- The value is a non-zero finite number. -/
def isNonZeroNum : JsV → Bool
  | .num d => d.m ≠ 0
  | _ => false

end JsV

/-! ## Character classes and string utilities (JavaScript semantics) -/

/-- JavaScript WhiteSpace and LineTerminator code points (the set matched
by `\\s`, used by `trim`, `parseInt` and `parseFloat`). -/
def jsWhite (c : Char) : Bool :=
  c = ' ' || c = '\t' || c = '\n' || c = '\r' ||
  c = '\u000b' || c = '\u000c' || c = '\u00a0' ||
  c = '\u1680' || ('\u2000' ≤ c && c ≤ '\u200a') ||
  c = '\u2028' || c = '\u2029' || c = '\u202f' ||
  c = '\u205f' || c = '\u3000' || c = '\ufeff'

/-- JavaScript line terminators (excluded by `.`, recognised by `^`/`$` in
multiline mode). -/
def jsLineTerm (c : Char) : Bool :=
  c = '\n' || c = '\r' || c = '\u2028' || c = '\u2029'

/-- ASCII decimal digit value. -/
def digitVal (c : Char) : ℕ := c.toNat - '0'.toNat

def isDigit (c : Char) : Bool := '0' ≤ c && c ≤ '9'

/-- `String.prototype.trim` (strips `jsWhite` from both ends). -/
def jsTrim (s : String) : String :=
  ⟨(s.data.dropWhile jsWhite).reverse.dropWhile jsWhite |>.reverse⟩

/-- ASCII `toLowerCase` (the identifiers compared in this code are ASCII). -/
def jsLower (s : String) : String := ⟨s.data.map Char.toLower⟩

/-- ASCII `toUpperCase`. -/
def jsUpper (s : String) : String := ⟨s.data.map Char.toUpper⟩

/-- `small` is a prefix of `big` (char lists). -/
def isPrefixList : List Char → List Char → Bool
  | [], _ => true
  | _ :: _, [] => false
  | a :: as, b :: bs => a = b && isPrefixList as bs

/-- `String.prototype.includes` (substring test). -/
def jsIncludes (s sub : String) : Bool :=
  (List.range (s.length + 1)).any fun i => isPrefixList sub.data (s.data.drop i)

/-- `String.prototype.split(sep)` for a single-character separator
(structural, so that proofs can evaluate it): every occurrence separates,
empty pieces are kept. -/
def jsSplitChar (sep : Char) (s : String) : List String :=
  (s.data.foldr
    (fun c acc =>
      match acc with
      | g :: gs => if c = sep then [] :: g :: gs else (c :: g) :: gs
      | [] => [[c]])
    [[]]).map fun g => (⟨g⟩ : String)

/-- `String.prototype.endsWith`. -/
def jsEndsWith (s suf : String) : Bool :=
  isPrefixList suf.data.reverse s.data.reverse

/-- `Array.prototype.join(sep)`. -/
def joinWith (sep : String) : List String → String
  | [] => ""
  | x :: xs => xs.foldl (fun acc y => acc ++ sep ++ y) x

/-- `String.prototype.padStart(2, '0')` as used on day/month fields. -/
def padStart2 (s : String) : String :=
  if s.length ≥ 2 then s else ⟨List.replicate (2 - s.length) '0' ++ s.data⟩

/-! ## `parseInt(s, 10)` and `parseFloat(s)` -/

/-- Longest leading run of decimal digits. -/
def takeDigits (cs : List Char) : List Char × List Char :=
  (cs.takeWhile isDigit, cs.dropWhile isDigit)

/-- Digits to natural number. -/
def digitsToNat (ds : List Char) : ℕ :=
  ds.foldl (fun acc c => acc * 10 + digitVal c) 0

/-- JavaScript `parseInt(s, 10)`: skip leading whitespace, optional sign,
longest digit prefix; `none` models `NaN`. -/
def jsParseInt (s : String) : Option ℤ :=
  let cs := s.data.dropWhile jsWhite
  let (sign, cs) : ℤ × List Char :=
    match cs with
    | '-' :: rest => (-1, rest)
    | '+' :: rest => (1, rest)
    | rest => (1, rest)
  let (ds, _) := takeDigits cs
  if ds = [] then none else some (sign * (digitsToNat ds : ℤ))

/-- Exponent part of a `StrDecimalLiteral` (`e`/`E`, optional sign, digits);
returns the exponent only when well-formed, else contributes nothing. -/
def parseExponent (cs : List Char) : ℤ :=
  match cs with
  | c :: rest =>
    if c = 'e' || c = 'E' then
      let (esign, rest') : ℤ × List Char :=
        match rest with
        | '-' :: r => (-1, r)
        | '+' :: r => (1, r)
        | r => (1, r)
      let (eds, _) := takeDigits rest'
      if eds = [] then 0 else esign * (digitsToNat eds : ℤ)
    else 0
  | [] => 0

/-- Build the parsed value from sign, integer digits, fraction digits and
the remainder (possible exponent): `sign * ip.fp * 10 ^ exp`, as an exact
decimal. -/
def decOfParts (sign : ℤ) (ip fp : List Char) (rest : List Char) : JsV :=
  let mant : ℤ := (digitsToNat ip * 10 ^ fp.length + digitsToNat fp : ℕ)
  match parseExponent rest with
  | .ofNat n => .num (decNorm (sign * mant * ipow10 n) fp.length)
  | .negSucc n => .num (decNorm (sign * mant) (fp.length + (n + 1)))

/-- JavaScript `parseFloat(s)`: skip leading whitespace, optional sign, then
the longest `StrDecimalLiteral` prefix (`Infinity`, or digits with optional
fraction and exponent). -/
def jsParseFloat (s : String) : JsV :=
  let cs := s.data.dropWhile jsWhite
  let (sign, cs) : ℤ × List Char :=
    match cs with
    | '-' :: rest => (-1, rest)
    | '+' :: rest => (1, rest)
    | rest => (1, rest)
  if isPrefixList "Infinity".data cs then .inf (sign < 0)
  else
    let (ip, r1) := takeDigits cs
    match r1 with
    | '.' :: r2 =>
      let (fp, r3) := takeDigits r2
      if ip = [] && fp = [] then .nan
      else decOfParts sign ip fp r3
    | _ =>
      if ip = [] then .nan
      else decOfParts sign ip [] r1

/-- `parseFloat` applied to a possibly-undefined cell
(`parseFloat(undefined)` is `NaN`). -/
def jsParseFloatOpt : Option String → JsV
  | none => .nan
  | some s => jsParseFloat s

end CgtData

namespace CgtData

/-! ## A small regular-expression engine (JavaScript semantics)

The parsers extract fields with JavaScript regex literals.  `RE` is an
abstract syntax for exactly the constructs those literals use; `reM` is a
backtracking matcher implementing JavaScript's leftmost, first-alternative,
greedy/lazy preference semantics.  The `fuel` argument bounds the number of
iterations of a `star`; every iteration is required to consume at least one
character (as in JavaScript, where an empty quantifier iteration ends the
loop), so `input length + 1` fuel is always sufficient. -/

inductive RE where
  | eps
  | ch (c : Char)
  | cls (neg : Bool) (ranges : List (Char × Char))
  | dot
  | bol
  | eol
  | wb
  | cat (r1 r2 : RE)
  | alt (r1 r2 : RE)
  | star (greedy : Bool) (r : RE)
  | opt (greedy : Bool) (r : RE)
  | grp (i : Nat) (r : RE)

/-- Sequence of regexes. -/
def reSeq (rs : List RE) : RE := rs.foldr RE.cat RE.eps

/-- Literal string regex. -/
def reStr (s : String) : RE := reSeq (s.data.map RE.ch)

/-- `r+` (greedy when `g`). -/
def rePlus (g : Bool) (r : RE) : RE := .cat r (.star g r)

/-- `r{n}`. -/
def reN : Nat → RE → RE
  | 0, _ => .eps
  | n + 1, r => .cat r (reN n r)

/-- Swap ASCII case (used for the `i` flag). -/
def swapCase (c : Char) : Char :=
  if 'a' ≤ c ∧ c ≤ 'z' then c.toUpper
  else if 'A' ≤ c ∧ c ≤ 'Z' then c.toLower
  else c

/-- Character equality under the optional `i` flag. -/
def charEqCi (ci : Bool) (a b : Char) : Bool :=
  a = b || (ci && swapCase a = b)

/-- Character-class membership under the optional `i` flag. -/
def clsTest (ci : Bool) (neg : Bool) (ranges : List (Char × Char)) (c : Char) : Bool :=
  let inR := fun (x : Char) => ranges.any fun p => p.1 ≤ x && x ≤ p.2
  let base := inR c || (ci && inR (swapCase c))
  if neg then !base else base

/-- Word character for `\b`. -/
def isWordChar (c : Char) : Bool :=
  ('a' ≤ c && c ≤ 'z') || ('A' ≤ c && c ≤ 'Z') || isDigit c || c = '_'

/-- Capture state: index `i` holds the text of group `i`. -/
abbrev Caps := List (Option (List Char))

/-- One layer of the backtracking matcher, structurally recursive on the
regex.  `prev` is the character just before the current position (for `^`,
`$`, `\\b`), `k` the continuation receiving the suffix left after `r`, and
`next` runs the next iteration of a `star` (with one unit of fuel less in
`reM` below). -/
def reMAux (ci : Bool)
    (next : RE → Option Char → List Char → Caps →
      (Option Char → List Char → Caps → Option (List Char × Caps)) →
      Option (List Char × Caps)) :
    RE → Option Char → List Char → Caps →
      (Option Char → List Char → Caps → Option (List Char × Caps)) →
      Option (List Char × Caps)
  | .eps, prev, s, caps, k => k prev s caps
  | .ch c, _prev, s, caps, k =>
    (match s with
     | [] => none
     | a :: s' => if charEqCi ci a c then k (some a) s' caps else none)
  | .cls neg ranges, _prev, s, caps, k =>
    (match s with
     | [] => none
     | a :: s' => if clsTest ci neg ranges a then k (some a) s' caps else none)
  | .dot, _prev, s, caps, k =>
    (match s with
     | [] => none
     | a :: s' => if jsLineTerm a then none else k (some a) s' caps)
  | .bol, prev, s, caps, k =>
    (match prev with
     | none => k prev s caps
     | some c => if jsLineTerm c then k prev s caps else none)
  | .eol, prev, s, caps, k =>
    (match s with
     | [] => k prev s caps
     | a :: _ => if jsLineTerm a then k prev s caps else none)
  | .wb, prev, s, caps, k =>
    let pw := match prev with | some c => isWordChar c | none => false
    let nw := match s with | a :: _ => isWordChar a | [] => false
    if pw != nw then k prev s caps else none
  | .cat r1 r2, prev, s, caps, k =>
    reMAux ci next r1 prev s caps fun p' s' c' => reMAux ci next r2 p' s' c' k
  | .alt r1 r2, prev, s, caps, k =>
    reMAux ci next r1 prev s caps k <|> reMAux ci next r2 prev s caps k
  | .opt g r1, prev, s, caps, k =>
    if g then reMAux ci next r1 prev s caps k <|> k prev s caps
    else k prev s caps <|> reMAux ci next r1 prev s caps k
  | .star g r1, prev, s, caps, k =>
    let cont := fun p' s' c' =>
      if s'.length < s.length then next (.star g r1) p' s' c' k
      else k p' s' c'
    if g then reMAux ci next r1 prev s caps cont <|> k prev s caps
    else k prev s caps <|> reMAux ci next r1 prev s caps cont
  | .grp i r1, prev, s, caps, k =>
    reMAux ci next r1 prev s caps fun p' s' c' =>
      k p' s' (c'.set i (some (s.take (s.length - s'.length))))

/-- The backtracking matcher: fuel is consumed once per `star` iteration;
every iteration consumes at least one character, so `input length + 1`
fuel is always sufficient. -/
def reM (ci : Bool) : Nat → RE → Option Char → List Char → Caps →
    (Option Char → List Char → Caps → Option (List Char × Caps)) →
    Option (List Char × Caps)
  | 0 => fun _ _ _ _ _ => none
  | fuel + 1 => reMAux ci (reM ci fuel)

/-- Try to match `r` exactly at the current position. -/
def matchAtPos (ci : Bool) (r : RE) (ng : Nat) (prev : Option Char) (s : List Char) :
    Option (List Char × Caps) :=
  reM ci (s.length + 1) r prev s (List.replicate (ng + 1) none) fun _ s' caps => some (s', caps)

/-- Leftmost search: try every start position from the left. -/
def searchGo (ci : Bool) (r : RE) (ng : Nat) (prev : Option Char) (s : List Char) (i : Nat) :
    Option (Nat × List Char × Caps) :=
  match matchAtPos ci r ng prev s with
  | some (s', caps) => some (i, s.take (s.length - s'.length), caps)
  | none =>
    match s with
    | [] => none
    | a :: rest => searchGo ci r ng (some a) rest (i + 1)

/-- `String.prototype.match(re)` for a non-global regex with `ng` capture
groups: entry 0 is the whole match, entries `1..ng` the groups. -/
def jsMatch (ci : Bool) (r : RE) (ng : Nat) (s : String) : Option (List (Option String)) :=
  (searchGo ci r ng none s.data 0).map fun m =>
    some (⟨m.2.1⟩ : String) :: ((m.2.2.drop 1).take ng).map fun oc => oc.map fun l => (⟨l⟩ : String)

/-- `RegExp.prototype.test`. -/
def reTest (ci : Bool) (r : RE) (s : String) : Bool := (jsMatch ci r 0 s).isSome

/-- `String.prototype.replace` with the `g` flag; `f` maps the matched text
and captures to the replacement.  None of the patterns used with `g` in this
code base can match the empty string (the guard treats an empty match as a
non-match). -/
def replAllGo (ci : Bool) (r : RE) (ng : Nat)
    (f : List Char → Caps → List Char) :
    Nat → Option Char → List Char → List Char
  | 0, _, s => s
  | fuel + 1, prev, s =>
    match s with
    | [] => []
    | a :: rest =>
      match matchAtPos ci r ng prev (a :: rest) with
      | some (s', caps) =>
        if s'.length < (a :: rest).length then
          let matched := (a :: rest).take ((a :: rest).length - s'.length)
          f matched caps ++ replAllGo ci r ng f fuel (matched.getLast? <|> prev) s'
        else a :: replAllGo ci r ng f fuel (some a) rest
      | none => a :: replAllGo ci r ng f fuel (some a) rest

/-- `String.prototype.replace(re, repl)` with the `g` flag. -/
def jsReplaceAll (ci : Bool) (r : RE) (ng : Nat) (f : List Char → Caps → List Char)
    (s : String) : String :=
  ⟨replAllGo ci r ng f s.data.length none s.data⟩

/-- Constant replacement text. -/
def constRepl (t : String) : List Char → Caps → List Char := fun _ _ => t.data

/-! Common character classes. -/

/-- Ranges of `\s` (mirrors `jsWhite`). -/
def wsRanges : List (Char × Char) :=
  [('\t', '\r'), (' ', ' '), ('\u00a0', '\u00a0'), ('\u1680', '\u1680'),
   ('\u2000', '\u200a'), ('\u2028', '\u2029'), ('\u202f', '\u202f'),
   ('\u205f', '\u205f'), ('\u3000', '\u3000'), ('\ufeff', '\ufeff')]

/-- `\s`. -/
def reWs : RE := .cls false wsRanges

/-- `\s*`. -/
def reWsStar : RE := .star true reWs

/-- `\s+`. -/
def reWsPlus : RE := rePlus true reWs

/-- `\d` = `[0-9]`. -/
def reDigit : RE := .cls false [('0', '9')]

end CgtData

namespace CgtData

/-! ## Calendar arithmetic for `new Date(year, monthIndex, day)`

`src/index.js` compares two dates built with the numeric `Date`
constructor.  The subtraction `dateObjA - dateObjB` is used only for its
sign, so the model measures a date in whole days.  (Both operands are local
midnights; a DST shift moves a midnight by at most one hour and never flips
the sign of a difference of distinct days.) -/

/-- Days since 1970-01-01 of a civil date (proleptic Gregorian calendar,
`m` in `1..12`); the classical `days_from_civil` algorithm with truncating
integer division, matching ECMAScript `MakeDay` for in-range fields. -/
def daysFromCivil (y m d : ℤ) : ℤ :=
  let y := if m ≤ 2 then y - 1 else y
  let era := (if 0 ≤ y then y else y - 399) / 400
  let yoe := y - era * 400
  let mp := (m + 9) % 12
  let doy := (153 * mp + 2) / 5 + d - 1
  let doe := yoe * 365 + yoe / 4 - yoe / 100 + doy
  era * 146097 + doe - 719468

/-- `new Date(year, monthIndex, day)` in days: ECMAScript maps a year in
`0..99` to `1900 + year` and normalizes month and day overflow. -/
def jsDateDays (year monthIndex day : ℤ) : ℤ :=
  let y := if 0 ≤ year ∧ year ≤ 99 then 1900 + year else year
  let ny := y + monthIndex.fdiv 12
  let nm := monthIndex.emod 12
  daysFromCivil ny (nm + 1) 1 + (day - 1)

/-! ## `src/index.js`: the merge/dedup/sort pipeline -/

/-- Second whitespace-delimited token of a line:
`(a || '').split(' ')[1]`, where an absent index (undefined) and the empty
string are both falsy. -/
def secondTok (s : String) : String := (jsSplitChar ' ' s).getD 1 ""

/-- `x` is falsy as a number (`NaN` or `0`), for the
`!yearA || !monthA || !dayA` test on `parseInt` results. -/
def falsyInt : Option ℤ → Bool
  | none => true
  | some n => n = 0

/-- `[dayA, monthA, yearA] = dateA.split('/').map(s => parseInt(s, 10))`
(missing positions are undefined, modelled as `none`, which is also how a
`NaN` parse is modelled — both are falsy). -/
def dmyOf (date : String) : Option ℤ × Option ℤ × Option ℤ :=
  let ps := (jsSplitChar '/' date).map jsParseInt
  (ps.getD 0 none, ps.getD 1 none, ps.getD 2 none)

/-- The `!yearX || !monthX || !dayX` test of the comparator, for one
line's date token. -/
def tokBad (date : String) : Bool :=
  let (day, month, year) := dmyOf date
  falsyInt year || falsyInt month || falsyInt day

/-- `new Date(yearX, monthX - 1, dayX)` of one line's date token, in
days. -/
def tokDays (date : String) : ℤ :=
  let (day, month, year) := dmyOf date
  jsDateDays (year.getD 0) (month.getD 0 - 1) (day.getD 0)

/-- The comparator of `sortTransactionsChronologically` (src/index.js,
lines 12-34).  Throws when either line misses its second token or any of
the six `parseInt` results is falsy; otherwise returns the
(day-denominated) difference `dateObjA - dateObjB`.  (The source tests the
six values in one condition; grouping them per line is the same
condition.) -/
def compareLines (a b : String) : Except String ℤ :=
  let dateA := secondTok a
  let dateB := secondTok b
  if dateA = "" || dateB = "" then
    .error "Missing or unparseable date in transaction line"
  else if tokBad dateA || tokBad dateB then
    .error "Unparsable date in transaction line"
  else
    .ok (tokDays dateA - tokDays dateB)

/-- The per-line slice of the comparator: the date key of one line, with
exactly the failure conditions the comparator applies to each of its two
arguments. -/
def dateVal (s : String) : Except String ℤ :=
  let date := secondTok s
  if date = "" then
    .error "Missing or unparseable date in transaction line"
  else if tokBad date then
    .error "Unparsable date in transaction line"
  else
    .ok (tokDays date)

/-- Date key with default (meaningful on lines whose `dateVal` is `.ok`). -/
def keyD (s : String) : ℤ := (dateVal s).toOption.getD 0

/-- Chronological order on lines, the order the sort establishes. -/
def dateLe (a b : String) : Prop := keyD a ≤ keyD b

/-- One insertion step of the sort model: place `x` into the sorted list,
invoking the (possibly throwing) comparator against successive elements. -/
def insertE (x : String) : List String → Except String (List String)
  | [] => .ok [x]
  | y :: ys =>
    match compareLines x y with
    | .error e => .error e
    | .ok c =>
      if c ≤ 0 then .ok (x :: y :: ys)
      else
        match insertE x ys with
        | .error e => .error e
        | .ok r => .ok (y :: r)

/-- `Array.prototype.sort` with the comparator of
`sortTransactionsChronologically`, modelled as a stable insertion sort in
the `Except` monad: on a list of fewer than two elements the comparator is
never invoked; otherwise every element takes part in at least one
comparison, and a comparator exception aborts the sort. -/
def sortE : List String → Except String (List String)
  | [] => .ok []
  | x :: xs =>
    match sortE xs with
    | .error e => .error e
    | .ok s => insertE x s

/-- Adding one line to the dedup `Set` of src/index.js (lines 98-111): a
falsy (empty) line is skipped, otherwise its trimmed form is added; the
array read back from the set lists members in insertion order. -/
def addLine (seen : List String) (line : String) : List String :=
  if line = "" then seen
  else if seen.contains (jsTrim line) then seen
  else seen ++ [jsTrim line]

/-- The merge/dedup step of `main` (src/index.js, lines 98-111): existing
lines first, then the new results, unioned by exact trimmed-string
equality. -/
def mergeLines (existing results : List String) : List String :=
  (existing ++ results).foldl addLine []

/-- The merge pipeline: dedup then chronological sort
(src/index.js, lines 98-114). -/
def mergePipeline (existing results : List String) : Except String (List String) :=
  sortE (mergeLines existing results)

/-- A JavaScript array object: an identity (reference) plus its contents.
Mutation is modelled by returning an object with the same `ref`. -/
structure JsArray where
  ref : Nat
  data : List String
deriving DecidableEq, Repr

/-- `sortTransactionsChronologically` (src/index.js, lines 11-35):
`transactions.sort(...)` sorts the array in place and returns the very same
array object. -/
def sortTransactionsChronologically (a : JsArray) : Except String JsArray :=
  match sortE a.data with
  | .ok l => .ok ⟨a.ref, l⟩
  | .error e => .error e

end CgtData

namespace CgtData

/-! ## Canonical transaction records and output formatting -/

/-- A parsed transaction object.  JavaScript objects built by the parsers
carry only some of these properties; an absent property is `undefined`. -/
structure Tx where
  kind : String
  date : String
  asset : String
  amount : JsV
  price : JsV
  expenses : JsV
  value : JsV
  multiplier : JsV
deriving DecidableEq, Repr

/-- JavaScript string conversion of a value in a template literal. -/
def jsValToString : JsV → String
  | .str s => s
  | .num d => d.toStr
  | .nan => "NaN"
  | .inf n => if n then "-Infinity" else "Infinity"
  | .null => "null"
  | .undef => "undefined"
  | .bool b => if b then "true" else "false"

/-- `m[i]` on a match result (the captures used here are all mandatory, so
a matched group is never undefined). -/
def capGet (m : List (Option String)) (i : Nat) : String := (m.getD i none).getD ""

/-- `str.replace(/,/g, '')`. -/
def stripCommas (s : String) : String := jsReplaceAll false (.ch ',') 0 (constRepl "") s

/-! ## `new Date(string)`

The repository feeds string dates to `new Date` in two format families:
ISO-like `YYYY-MM-DD[T...]` stamps and English month-name dates
(`October 15, 2021 ...` / `11 Oct 2021`).  The model parses exactly these
and yields the civil (year, month, day); everything else is an invalid
date (`none`).  A UTC environment is assumed, so no form shifts across a
day boundary. -/

/-- English month names and abbreviations recognised by the date parser. -/
def monthNames : List (String × ℤ) :=
  [("january", 1), ("february", 2), ("march", 3), ("april", 4), ("may", 5),
   ("june", 6), ("july", 7), ("august", 8), ("september", 9), ("october", 10),
   ("november", 11), ("december", 12),
   ("jan", 1), ("feb", 2), ("mar", 3), ("apr", 4), ("jun", 6), ("jul", 7),
   ("aug", 8), ("sep", 9), ("oct", 10), ("nov", 11), ("dec", 12)]

def monthOfName (t : String) : Option ℤ :=
  (monthNames.find? fun p => p.1 = jsLower t).map (·.2)

/-- All characters are decimal digits (and the token is non-empty). -/
def allDigits (s : String) : Bool := s ≠ "" && s.data.all isDigit

def validYMD (m d : ℤ) : Bool := 1 ≤ m && m ≤ 12 && 1 ≤ d && d ≤ 31

/-- `YYYY-MM-DD` optionally followed by a `T...` time part. -/
def isoParse (cs : List Char) : Option (ℤ × ℤ × ℤ) :=
  match cs with
  | y1 :: y2 :: y3 :: y4 :: '-' :: m1 :: m2 :: '-' :: d1 :: d2 :: rest =>
    if [y1, y2, y3, y4, m1, m2, d1, d2].all isDigit &&
       (rest = [] || rest.head? = some 'T') then
      let y : ℤ := digitsToNat [y1, y2, y3, y4]
      let m : ℤ := digitsToNat [m1, m2]
      let d : ℤ := digitsToNat [d1, d2]
      if validYMD m d then some (y, m, d) else none
    else none
  | _ => none

/-- Weekday tokens V8 skips at the front of a date string. -/
def weekdayNames : List String :=
  ["monday", "tuesday", "wednesday", "thursday", "friday", "saturday", "sunday",
   "mon", "tue", "wed", "thu", "fri", "sat", "sun"]

/-- A trailing token V8's lenient parser accepts after the calendar date
(time-of-day, numeric offset, or a timezone word); a word like `at` makes
the whole date invalid. -/
def timeishTok (t : String) : Bool :=
  (t ≠ "" && t.data.all fun c => isDigit c || c = ':' || c = '.' || c = '+' || c = '-') ||
  ["am", "pm", "gmt", "utc", "bst", "z"].contains (jsLower t)

/-- `new Date(string)` restricted to the format families above. -/
def jsNewDate (s : String) : Option (ℤ × ℤ × ℤ) :=
  let t := jsTrim s
  match isoParse t.data with
  | some ymd => some ymd
  | none =>
    let toks := (jsSplitChar ' ' (⟨t.data.map fun c => if c = ',' then ' ' else c⟩ : String)).filter (· ≠ "")
    let toks :=
      match toks with
      | w :: rest => if weekdayNames.contains (jsLower w) then rest else toks
      | _ => toks
    match toks with
    | a :: b :: c :: rest =>
      if !rest.all timeishTok then none
      else
        match monthOfName a with
        | some m =>
          -- "MonthName D YYYY [time...]"
          if allDigits b && allDigits c && c.length = 4 then
            let d : ℤ := digitsToNat b.data
            let y : ℤ := digitsToNat c.data
            if validYMD m d then some (y, m, d) else none
          else none
        | none =>
          -- "D MonthName YYYY [time...]"
          match monthOfName b with
          | some m =>
            if allDigits a && allDigits c && c.length = 4 then
              let d : ℤ := digitsToNat a.data
              let y : ℤ := digitsToNat c.data
              if validYMD m d then some (y, m, d) else none
            else none
          | none => none
    | _ => none

end CgtData

namespace CgtData

/-- Alternation of a list of regexes (left-to-right preference). -/
def reAlt : List RE → RE
  | [] => .eps
  | [r] => r
  | r :: rest => .alt r (reAlt rest)

/-- Hexadecimal digit value. -/
def hexVal (c : Char) : ℕ :=
  if isDigit c then digitVal c else c.toUpper.toNat - 'A'.toNat + 10

namespace BullionVault

/-! ### `src/bullionvault.js` — BullionVault email parser -/

/-- `/=\r?\n/g` (soft line break). -/
def softBreakRE : RE := reSeq [.ch '=', .opt true (.ch '\r'), .ch '\n']

/-- `[0-9A-F]` (with the `i` flag also matching lowercase). -/
def hexCls : RE := .cls false [('0', '9'), ('A', 'F')]

/-- `/=([0-9A-F]{2})/gi`. -/
def hexRE : RE := .cat (.ch '=') (.grp 1 (reN 2 hexCls))

/-- Replacement `(m, hex) => String.fromCharCode(parseInt(hex, 16))`. -/
def hexRepl : List Char → Caps → List Char := fun _ caps =>
  match caps.getD 1 none with
  | some [h1, h2] => [Char.ofNat (hexVal h1 * 16 + hexVal h2)]
  | _ => []

/-- `decodeQuotedPrintable` (src/bullionvault.js, lines 144-158): return
non-strings and falsy values unchanged; otherwise delete soft line breaks,
then decode `=XX` escapes.  (The `try`/`catch` around the second replace
can never fire.) -/
def decodeQuotedPrintable (v : JsV) : JsV :=
  match v with
  | .str s =>
    if s = "" then .str s
    else .str (jsReplaceAll true hexRE 1 hexRepl
                (jsReplaceAll false softBreakRE 0 (constRepl "") s))
  | v => v

/-- `/<[^>]*>/g`. -/
def tagRE : RE := reSeq [.ch '<', .star true (.cls true [('>', '>')]), .ch '>']

/-- `stripHtml` (src/bullionvault.js, lines 160-169): return non-strings
and falsy values unchanged; otherwise drop tags, decode the four named
entities, collapse whitespace runs and trim. -/
def stripHtml (v : JsV) : JsV :=
  match v with
  | .str s =>
    if s = "" then .str s
    else
      let t := jsReplaceAll false tagRE 0 (constRepl "") s
      let t := jsReplaceAll true (reStr "&nbsp;") 0 (constRepl " ") t
      let t := jsReplaceAll true (reStr "&amp;") 0 (constRepl "&") t
      let t := jsReplaceAll true (reStr "&lt;") 0 (constRepl "<") t
      let t := jsReplaceAll true (reStr "&gt;") 0 (constRepl ">") t
      let t := jsReplaceAll false reWsPlus 0 (constRepl " ") t
      .str (jsTrim t)
  | v => v

/-- Contents of a `JsV` known (at its use sites) to be a string. -/
def asStr : JsV → String
  | .str s => s
  | _ => ""

/-- `[0-9,]+(?:\.[0-9]+)?` (a money amount). -/
def moneyRE : RE :=
  .cat (rePlus true (.cls false [('0', '9'), (',', ',')]))
       (.opt true (.cat (.ch '.') (rePlus true reDigit)))

/-- `/Summary:\s*(Buy|Sell)\s*([0-9,.]+)kg\s*@\s*GBP\s*([0-9,]+(?:\.[0-9]+)?)[\/]?kg/i` -/
def summaryRE : RE :=
  reSeq [reStr "Summary:", reWsStar,
    .grp 1 (.alt (reStr "Buy") (reStr "Sell")), reWsStar,
    .grp 2 (rePlus true (.cls false [('0', '9'), (',', ','), ('.', '.')])),
    reStr "kg", reWsStar, .ch '@', reWsStar, reStr "GBP", reWsStar,
    .grp 3 moneyRE, .opt true (.cls false [('/', '/')]), reStr "kg"]

/-- `/Consideration:\s*GBP\s*([0-9,]+(?:\.[0-9]+)?)/i` -/
def considerationRE : RE :=
  reSeq [reStr "Consideration:", reWsStar, reStr "GBP", reWsStar, .grp 1 moneyRE]

/-- `/Commission:\s*GBP\s*([0-9,]+(?:\.[0-9]+)?)/i` -/
def commissionRE : RE :=
  reSeq [reStr "Commission:", reWsStar, reStr "GBP", reWsStar, .grp 1 moneyRE]

/-- `/(?:Total cost|Total received):\s*GBP\s*([0-9,]+(?:\.[0-9]+)?)/i` -/
def totalRE : RE :=
  reSeq [.alt (reStr "Total cost") (reStr "Total received"), .ch ':',
    reWsStar, reStr "GBP", reWsStar, .grp 1 moneyRE]

/-- `/Deal time:\s*([^\r\n]+)/i` -/
def dealTimeRE : RE :=
  reSeq [reStr "Deal time:", reWsStar,
    .grp 1 (rePlus true (.cls true [('\n', '\n'), ('\r', '\r')]))]

/-- `/([A-Za-z]+\s+\d{1,2},\s*\d{4}(?:\s+at\s+[^G]+GMT)?|\d{4}-\d{2}-\d{2}T\d{2}:\d{2}:\d{2})/i` -/
def dtPartRE : RE :=
  .grp 1 (.alt
    (reSeq [rePlus true (.cls false [('A', 'Z'), ('a', 'z')]), reWsPlus,
      .cat reDigit (.opt true reDigit), .ch ',', reWsStar, reN 4 reDigit,
      .opt true (reSeq [reWsPlus, reStr "at", reWsPlus,
        rePlus true (.cls true [('G', 'G')]), reStr "GMT"])])
    (reSeq [reN 4 reDigit, .ch '-', reN 2 reDigit, .ch '-', reN 2 reDigit,
      .ch 'T', reN 2 reDigit, .ch ':', reN 2 reDigit, .ch ':', reN 2 reDigit]))

/-- `/^Date:\s*(.+)$/m` (transport header date). -/
def headerDateRE : RE :=
  reSeq [.bol, reStr "Date:", reWsStar, .grp 1 (rePlus true .dot), .eol]

/-- `/(\d{1,2})\s+(January|February|...|December)\s+(\d{4})/i` -/
def monthNameRE : RE :=
  reSeq [.grp 1 (.cat reDigit (.opt true reDigit)), reWsPlus,
    .grp 2 (reAlt ([ "January", "February", "March", "April", "May", "June",
      "July", "August", "September", "October", "November", "December"].map reStr)),
    reWsPlus, .grp 3 (reN 4 reDigit)]

/-- `formatDate` (src/bullionvault.js, lines 99-130): `new Date` parse,
falling back to a month-name regex; `null` when both fail. -/
def formatDate (dateString : String) : Option String :=
  if dateString = "" then none
  else
    let cleanDate := jsTrim dateString
    match jsNewDate cleanDate with
    | some (y, m, d) =>
      some (padStart2 (toString d) ++ "/" ++ padStart2 (toString m) ++ "/" ++ toString y)
    | none =>
      match jsMatch true monthNameRE 3 cleanDate with
      | some mm =>
        let day := capGet mm 1
        let month := capGet mm 2
        let year := capGet mm 3
        let monthNum :=
          match jsNewDate (month ++ " 1, " ++ year) with
          | some (_, m, _) => toString m
          | none => "NaN"
        some (padStart2 day ++ "/" ++ padStart2 monthNum ++ "/" ++ year)
      | none => none

/-- `parseEmailFile` (src/bullionvault.js, lines 35-97) on the contents of
one email file: decode, strip HTML, extract fields.  A non-matching
summary line means "not a transaction email" (`null`); invalid numbers and
a missing date throw. -/
def parseEmailFile (fileContent : String) : Except String (Option Tx) :=
  let content := asStr (stripHtml (decodeQuotedPrintable (.str fileContent)))
  match jsMatch true summaryRE 3 content with
  | none => .ok none
  | some sm =>
    let kind := jsUpper (capGet sm 1)
    let quantityRaw := stripCommas (capGet sm 2)
    let quantity := jsParseFloat quantityRaw
    let priceRaw := stripCommas (capGet sm 3)
    let pricePerKg := jsParseFloat priceRaw
    let _consideration : JsV :=
      match jsMatch true considerationRE 1 content with
      | some cm => jsParseFloat (stripCommas (capGet cm 1))
      | none => .null
    let commission : JsV :=
      match jsMatch true commissionRE 1 content with
      | some cm => jsParseFloat (stripCommas (capGet cm 1))
      | none => .null
    let _total : JsV :=
      match jsMatch true totalRE 1 content with
      | some tm => jsParseFloat (stripCommas (capGet tm 1))
      | none => .null
    if !quantity.isFiniteNum || quantity.isNaNNum || quantity.eqZero then
      .error "Invalid quantity parsed from email"
    else if !pricePerKg.isFiniteNum || pricePerKg.isNaNNum || pricePerKg.leZero then
      .error "Invalid price parsed from email"
    else
      let date1 : Option String :=
        match jsMatch true dealTimeRE 1 content with
        | some dm =>
          let dtRaw := jsTrim (capGet dm 1)
          let dtForFormat :=
            match jsMatch true dtPartRE 1 dtRaw with
            | some pm => capGet pm 1
            | none => dtRaw
          formatDate (jsTrim dtForFormat)
        | none => none
      let date2 : Option String :=
        match date1 with
        | some d => some d
        | none =>
          match jsMatch false headerDateRE 1 fileContent with
          | some hm => formatDate (jsTrim (capGet hm 1))
          | none => none
      match date2 with
      | none => .error "No parsable date found"
      | some date =>
        .ok (some ⟨kind, date, "GOLD", quantity, pricePerKg, commission, .undef, .undef⟩)

/-- `formatTransaction` (src/bullionvault.js, lines 132-137): trades are
formatted, any other kind yields the empty string. -/
def formatTransaction (t : Tx) : String :=
  if t.kind = "BUY" || t.kind = "SELL" then
    t.kind ++ " " ++ t.date ++ " " ++ t.asset ++ " " ++ jsValToString t.amount ++
      " " ++ jsValToString t.price ++ " " ++ jsValToString t.expenses
  else ""

end BullionVault

end CgtData

namespace CgtData

namespace Part001

/-! ### `src/unnamed/part_001` — draft BullionVault parser (string input)

This variant captures an explicit currency token in the consideration and
commission lines and fails fast when it is not GBP. -/

/-- `parseNumber`: `parseFloat(String(str).replace(/,/g, ''))`. -/
def parseNumber (str : String) : JsV := jsParseFloat (stripCommas str)

/-- `/(?:Summary|Deal):\s*(Buy|Sell)\s*([0-9.,]+)\s*kg\s*@[^/]*?([0-9,]+(?:\.[0-9]+)?)\s*\/kg/i` -/
def summaryOrDealRE : RE :=
  reSeq [.alt (reStr "Summary") (reStr "Deal"), .ch ':', reWsStar,
    .grp 1 (.alt (reStr "Buy") (reStr "Sell")), reWsStar,
    .grp 2 (rePlus true (.cls false [('0', '9'), ('.', '.'), (',', ',')])),
    reWsStar, reStr "kg", reWsStar, .ch '@',
    .star false (.cls true [('/', '/')]),
    .grp 3 BullionVault.moneyRE, reWsStar, .ch '/', reStr "kg"]

/-- `/(?:Net\s+consideration|Consideration):\s*(?:.*=')?([A-Z]{3})(?:'})?\s([0-9,]+(?:\.[0-9]+)?)/i` -/
def considerationRE : RE :=
  reSeq [.alt (reSeq [reStr "Net", reWsPlus, reStr "consideration"]) (reStr "Consideration"),
    .ch ':', reWsStar,
    .opt true (.cat (.star true .dot) (reStr "='")),
    .grp 1 (reN 3 (.cls false [('A', 'Z')])),
    .opt true (reStr "'\x7d"), reWs, .grp 2 BullionVault.moneyRE]

/-- `/(?:Commission):\s*(?:.*=')?([A-Z]{3})(?:'})?\s([0-9,]+(?:\.[0-9]+)?)/i` -/
def commissionRE : RE :=
  reSeq [reStr "Commission", .ch ':', reWsStar,
    .opt true (.cat (.star true .dot) (reStr "='")),
    .grp 1 (reN 3 (.cls false [('A', 'Z')])),
    .opt true (reStr "'\x7d"), reWs, .grp 2 BullionVault.moneyRE]

/-- `/Security:\s*([^\r\n]+)/i` -/
def securityRE : RE :=
  reSeq [reStr "Security:", reWsStar,
    .grp 1 (rePlus true (.cls true [('\n', '\n'), ('\r', '\r')]))]

/-- `/\b(gold?)\b/i` -/
def goldRE : RE := reSeq [.wb, .grp 1 (.cat (reStr "gol") (.opt true (.ch 'd'))), .wb]

/-- `/\b(silver?)\b/i` -/
def silverRE : RE := reSeq [.wb, .grp 1 (.cat (reStr "silve") (.opt true (.ch 'r'))), .wb]

/-- `detectAsset` (src/unnamed/part_001, lines 24-30): look for a keyword
in the `Security:` line if present, else in the whole body; unknown asset
throws. -/
def detectAsset (text filePath : String) : Except String String :=
  let toCheck :=
    match jsMatch true securityRE 1 text with
    | some m => capGet m 1
    | none => text
  if reTest true goldRE toCheck then .ok "GOLD"
  else if reTest true silverRE toCheck then .ok "SILVER"
  else if reTest true goldRE text then .ok "GOLD"
  else if reTest true silverRE text then .ok "SILVER"
  else .error ("Unable to detect asset type (gold/silver) in " ++ filePath)

/-- `/\bat\b/gi` -/
def atWordRE : RE := reSeq [.wb, reStr "at", .wb]

/-- `/\b(GMT|UTC|BST)\b/gi` -/
def tzWordRE : RE :=
  reSeq [.wb, .grp 1 (reAlt [reStr "GMT", reStr "UTC", reStr "BST"]), .wb]

/-- `formatDate` (src/unnamed/part_001, lines 108-135): normalization plus
`new Date`, then a month-name fallback; unparsable input throws. -/
def formatDate (dateString : String) : Except String String :=
  if dateString = "" then .error "formatDate expected a non-empty string"
  else
    let cleanDate := jsTrim dateString
    let normalized := jsTrim (jsReplaceAll true tzWordRE 1 (constRepl "")
      (jsReplaceAll true atWordRE 0 (constRepl "") cleanDate))
    match jsNewDate normalized with
    | some (y, m, d) =>
      .ok (padStart2 (toString d) ++ "/" ++ padStart2 (toString m) ++ "/" ++ toString y)
    | none =>
      match jsMatch true BullionVault.monthNameRE 3 cleanDate with
      | some mm =>
        let day := padStart2 (capGet mm 1)
        let monthName := capGet mm 2
        let year := capGet mm 3
        let monthNum :=
          match jsNewDate (monthName ++ " 1, " ++ year) with
          | some (_, m, _) => toString m
          | none => "NaN"
        .ok (day ++ "/" ++ padStart2 monthNum ++ "/" ++ year)
      | none => .error ("Unparsable date string: " ++ dateString)

/-- The `considerationMatch[1].toUpperCase()` value, when the
consideration line matches. -/
def considerationCurrencyOf (content : String) : Option String :=
  (jsMatch true considerationRE 2 content).map fun m => jsUpper (capGet m 1)

/-- The `commissionMatch[1].toUpperCase()` value, when the commission line
matches. -/
def commissionCurrencyOf (content : String) : Option String :=
  (jsMatch true commissionRE 2 content).map fun m => jsUpper (capGet m 1)

/-- `parseEmailString` (src/unnamed/part_001, lines 48-106).  The source
indexes match results without null checks, so a missing summary,
consideration or commission line raises a `TypeError`; a captured non-GBP
currency, a bad number, an unknown asset and an absent or unparsable deal
time all throw. -/
def parseEmailString (content sourceLabel : String) : Except String Tx :=
  let summaryOrDealMatch := jsMatch true summaryOrDealRE 3 content
  let considerationMatch := jsMatch true considerationRE 2 content
  let commissionMatch := jsMatch true commissionRE 2 content
  let dealTimeMatch := jsMatch true BullionVault.dealTimeRE 1 content
  match summaryOrDealMatch with
  | none => .error "TypeError: cannot read properties of null (summary match)"
  | some sm =>
    let kind := jsUpper (capGet sm 1)
    let quantity := parseNumber (capGet sm 2)
    let pricePerKg := parseNumber (capGet sm 3)
    match considerationMatch with
    | none => .error "TypeError: cannot read properties of null (consideration match)"
    | some cm =>
      let considerationCurrency := jsUpper (capGet cm 1)
      match commissionMatch with
      | none => .error "TypeError: cannot read properties of null (commission match)"
      | some com =>
        let commissionCurrency := jsUpper (capGet com 1)
        let commission := parseNumber (capGet com 2)
        if considerationCurrency ≠ "GBP" then
          .error ("Unsupported currency '" ++ considerationCurrency ++ "' in " ++ sourceLabel)
        else if commissionCurrency ≠ "GBP" then
          .error ("Unsupported currency '" ++ commissionCurrency ++ "' in " ++ sourceLabel)
        else if !commission.isFiniteNum || commission.isNaNNum then
          .error ("Missing or unparsable commission/expenses in " ++ sourceLabel)
        else
          match detectAsset content sourceLabel with
          | .error e => .error e
          | .ok assetDetected =>
            if !quantity.isFiniteNum || quantity.isNaNNum || quantity.eqZero then
              .error ("Invalid quantity parsed from email " ++ sourceLabel)
            else if !pricePerKg.isFiniteNum || pricePerKg.isNaNNum || pricePerKg.leZero then
              .error ("Invalid price parsed from email " ++ sourceLabel)
            else
              match dealTimeMatch with
              | some dm =>
                let dtRaw := jsTrim (capGet dm 1)
                let dtForFormat :=
                  match jsMatch true BullionVault.dtPartRE 1 dtRaw with
                  | some pm => capGet pm 1
                  | none => dtRaw
                match formatDate (jsTrim dtForFormat) with
                | .error e => .error e
                | .ok date =>
                  .ok ⟨kind, date, assetDetected, quantity, pricePerKg, commission, .undef, .undef⟩
              | none => .error ("No parsable date found in " ++ sourceLabel)

/-- `formatTransaction` (src/unnamed/part_001, lines 137-142): trades are
formatted, any other kind throws. -/
def formatTransaction (t : Tx) : Except String String :=
  if t.kind = "BUY" || t.kind = "SELL" then
    .ok (t.kind ++ " " ++ t.date ++ " " ++ t.asset ++ " " ++ jsValToString t.amount ++
      " " ++ jsValToString t.price ++ " " ++ jsValToString t.expenses)
  else .error ("Unsupported transaction kind: " ++ t.kind)

end Part001

end CgtData

namespace CgtData

/-- A CSV row object: column name to cell text; a missing column is
undefined. -/
abbrev Row := List (String × String)

/-- `row['K']`. -/
def rowGet (row : Row) (k : String) : Option String :=
  (row.find? (·.1 = k)).map (·.2)

/-- `a || b` on a possibly-undefined string against a string default. -/
def falsyOr (a : Option String) (b : String) : String :=
  match a with
  | some s => if s = "" then b else s
  | none => b

/-- `a || b` on two possibly-undefined strings. -/
def falsyOrOpt (a b : Option String) : Option String :=
  match a with
  | some s => if s = "" then b else a
  | none => b

/-- `!x` on a possibly-undefined string. -/
def falsyStrOpt (a : Option String) : Bool := a = none || a = some ""

/-- `v >= 0` with JavaScript comparison semantics. -/
def JsV.geZero : JsV → Bool
  | .num d => 0 ≤ d.m
  | .inf neg => !neg
  | _ => false

namespace Freetrade

/-! ### `src/freetrade.js` — Freetrade CSV parser -/

/-- `formatDate` (src/freetrade.js, lines 237-249): falsy input gives `''`;
note there is no invalid-date check, so an unparsable timestamp produces
the (truthy) string `"NaN/NaN/NaN"` from `getDate()` etc. of an invalid
`Date`. -/
def formatDate (dateString : Option String) : String :=
  match dateString with
  | none => ""
  | some s =>
    if s = "" then ""
    else
      match jsNewDate s with
      | some (y, m, d) =>
        padStart2 (toString d) ++ "/" ++ padStart2 (toString m) ++ "/" ++ toString y
      | none => "NaN/NaN/NaN"

/-- `calculateExpenses` (src/freetrade.js, lines 226-230):
`(parseFloat(stampDuty) || 0) + (parseFloat(fxFee) || 0)`. -/
def calculateExpenses (row : Row) : JsV :=
  let stampDuty := (jsParseFloatOpt (rowGet row "Stamp Duty")).orZero
  let fxFee := (jsParseFloatOpt (rowGet row "FX Fee Amount")).orZero
  stampDuty.jsAdd fxFee

/-- `parseTransaction` (src/freetrade.js, lines 122-154).  The amount is
the parsed quantity, validated finite and non-zero but not sign-normalized
(no `Math.abs`). -/
def parseTransaction (row : Row) : Except String Tx :=
  let buySell := (rowGet row "Buy / Sell").map jsLower
  let kind := if buySell = some "buy" then "BUY" else "SELL"
  let dateRaw := rowGet row "Timestamp"
  let date := formatDate dateRaw
  if date = "" then .error "Invalid or missing Timestamp"
  else
    let asset := jsTrim (falsyOr (rowGet row "ISIN") (falsyOr (rowGet row "Ticker") ""))
    if asset = "" then .error "Missing asset identifier (ISIN/Ticker)"
    else
      let amount := jsParseFloatOpt (rowGet row "Quantity")
      if !amount.isFiniteNum || amount.isNaNNum || amount.eqZero then
        .error "Invalid Quantity"
      else
        let price := jsParseFloatOpt (rowGet row "Price per Share in Account Currency")
        if !price.isFiniteNum || price.isNaNNum || price.leZero then
          .error "Invalid Price per Share"
        else
          .ok ⟨kind, date, asset, amount, price, calculateExpenses row, .undef, .undef⟩

/-- `parseDividend` (src/freetrade.js, lines 161-189): missing or invalid
dividend quantities and values skip the row (`null`), not throw. -/
def parseDividend (row : Row) : Except String (Option Tx) :=
  let dateRaw := falsyOrOpt (rowGet row "Dividend Pay Date") (rowGet row "Dividend Ex Date")
  let date := formatDate dateRaw
  if date = "" then .error "Invalid or missing dividend date"
  else
    let asset := jsTrim (falsyOr (rowGet row "ISIN") (falsyOr (rowGet row "Ticker") ""))
    if asset = "" then .error "Missing asset identifier for dividend"
    else
      let amountRaw := rowGet row "Dividend Eligible Quantity"
      let valueRaw := rowGet row "Dividend Net Distribution Amount"
      if falsyStrOpt amountRaw || falsyStrOpt valueRaw then .ok none
      else
        let amount := jsParseFloatOpt amountRaw
        if !amount.isFiniteNum || amount.isNaNNum || amount.eqZero then .ok none
        else
          let value := jsParseFloatOpt valueRaw
          if !value.isFiniteNum || value.isNaNNum then .ok none
          else .ok (some ⟨"DIVIDEND", date, asset, amount, .undef, .undef, value, .undef⟩)

/-- `parseCapitalReturn` (src/freetrade.js, lines 196-219). -/
def parseCapitalReturn (row : Row) : Except String Tx :=
  let dateRaw := rowGet row "Timestamp"
  let date := formatDate dateRaw
  if date = "" then .error "Invalid or missing Timestamp for capital return"
  else
    let asset := jsTrim (falsyOr (rowGet row "ISIN") (falsyOr (rowGet row "Ticker") ""))
    if asset = "" then .error "Missing asset identifier for capital return"
    else
      let amount := jsParseFloatOpt (rowGet row "Quantity")
      if !amount.isFiniteNum || amount.isNaNNum then .error "Invalid Quantity for capital return"
      else
        let value := jsParseFloatOpt (rowGet row "Total Amount")
        if !value.isFiniteNum || value.isNaNNum then .error "Invalid Total Amount for capital return"
        else .ok ⟨"CAPRETURN", date, asset, amount, .undef, .undef, value, .undef⟩

/-- `parseRow` (src/freetrade.js, lines 96-115): classify by `Type` and
`Buy / Sell`; unrecognised rows are skipped. -/
def parseRow (row : Row) : Except String (Option Tx) :=
  let type := (rowGet row "Type").map jsLower
  let buySell := (rowGet row "Buy / Sell").map jsLower
  if type = some "order" && (buySell = some "buy" || buySell = some "sell") then
    (parseTransaction row).map some
  else if type = some "dividend" || type = some "special_dividend" then
    parseDividend row
  else if type = some "capital" || type = some "capital return" then
    (parseCapitalReturn row).map some
  else .ok none

/-- `formatTransaction` (src/freetrade.js, lines 256-265): three known
families of kinds; anything else yields the empty string. -/
def formatTransaction (t : Tx) : String :=
  if t.kind = "BUY" || t.kind = "SELL" then
    t.kind ++ " " ++ t.date ++ " " ++ t.asset ++ " " ++ jsValToString t.amount ++
      " " ++ jsValToString t.price ++ " " ++ jsValToString t.expenses
  else if t.kind = "DIVIDEND" || t.kind = "CAPRETURN" then
    t.kind ++ " " ++ t.date ++ " " ++ t.asset ++ " " ++ jsValToString t.amount ++
      " " ++ jsValToString t.value
  else if t.kind = "SPLIT" || t.kind = "UNSPLIT" then
    t.kind ++ " " ++ t.date ++ " " ++ t.asset ++ " " ++ jsValToString t.multiplier
  else ""

/-- The formatting step of `parseToFormat` (src/freetrade.js, line 275):
`transactions.map(formatTransaction).filter(Boolean)` — empty strings are
silently dropped. -/
def formatLines (ts : List Tx) : List String :=
  (ts.map formatTransaction).filter (· ≠ "")

end Freetrade

end CgtData

namespace CgtData

namespace II

/-! ### `src/ii.js` — Interactive Investor CSV parser -/

/-- `[£$€,]`. -/
def currencyCls : RE := .cls false [('£', '£'), ('$', '$'), ('€', '€'), (',', ',')]

/-- `parsePrice` (src/ii.js, lines 175-181): strip currency symbols and
separators, `parseFloat(...) || 0`. -/
def parsePrice (priceStr : Option String) : JsV :=
  match priceStr with
  | none => .int 0
  | some s =>
    if s = "" || s = "n/a" then .int 0
    else (jsParseFloat (jsReplaceAll false currencyCls 0 (constRepl "") s)).orZero

/-- `parseAmount` (src/ii.js, lines 188-194): same treatment for the
`Debit`/`Credit` cells. -/
def parseAmount (amountStr : Option String) : JsV :=
  match amountStr with
  | none => .int 0
  | some s =>
    if s = "" || s = "n/a" then .int 0
    else (jsParseFloat (jsReplaceAll false currencyCls 0 (constRepl "") s)).orZero

/-- `calculateExpenses` (src/ii.js, lines 201-205): always `0`. -/
def calculateExpenses (_row : Row) : JsV := .int 0

/-- `formatDate` (src/ii.js, lines 212-228): re-pad a `D/M/YYYY` string,
return anything else unchanged. -/
def formatDate (dateString : String) : String :=
  if dateString = "" then ""
  else
    let parts := jsSplitChar '/' dateString
    if parts.length = 3 then
      padStart2 (parts.getD 0 "") ++ "/" ++ padStart2 (parts.getD 1 "") ++ "/" ++ parts.getD 2 ""
    else dateString

/-- `getDateField` (src/ii.js, lines 99-104): value of the first column
whose name ends with `Date`. -/
def getDateField (row : Row) : String :=
  match row.find? fun p => jsEndsWith p.1 "Date" with
  | some p => p.2
  | none => ""

/-- `parseBuyTransaction` (src/ii.js, lines 112-136): the amount is
`Math.abs(parseFloat(quantity))`, validated non-zero and finite. -/
def parseBuyTransaction (row : Row) (dateField : String) : Except String Tx :=
  let date := formatDate dateField
  if date = "" then .error "Invalid or missing date"
  else
    let asset := jsTrim (falsyOr (rowGet row "Sedol") (falsyOr (rowGet row "Symbol") ""))
    if asset = "" then .error "Missing asset identifier for buy"
    else
      let amount := (jsParseFloatOpt (rowGet row "Quantity")).jsAbs
      if !amount.isFiniteNum || amount.isNaNNum || amount.eqZero then
        .error "Invalid Quantity for BUY"
      else
        let price := parsePrice (rowGet row "Price")
        if !price.isFiniteNum || price.isNaNNum || price.leZero then
          .error "Invalid price for BUY"
        else .ok ⟨"BUY", date, asset, amount, price, calculateExpenses row, .undef, .undef⟩

/-- `parseSellTransaction` (src/ii.js, lines 144-168). -/
def parseSellTransaction (row : Row) (dateField : String) : Except String Tx :=
  let date := formatDate dateField
  if date = "" then .error "Invalid or missing date"
  else
    let asset := jsTrim (falsyOr (rowGet row "Sedol") (falsyOr (rowGet row "Symbol") ""))
    if asset = "" then .error "Missing asset identifier for sell"
    else
      let amount := (jsParseFloatOpt (rowGet row "Quantity")).jsAbs
      if !amount.isFiniteNum || amount.isNaNNum || amount.eqZero then
        .error "Invalid Quantity for SELL"
      else
        let price := parsePrice (rowGet row "Price")
        if !price.isFiniteNum || price.isNaNNum || price.leZero then
          .error "Invalid price for SELL"
        else .ok ⟨"SELL", date, asset, amount, price, calculateExpenses row, .undef, .undef⟩

/-- The keyword skip list of `parseRow` (src/ii.js, lines 69-73). -/
def skipByDescription (description : String) : Bool :=
  jsIncludes description "total monthly fee" ||
  jsIncludes description "fee transfer" ||
  jsIncludes description "debit card payment" ||
  jsIncludes description "cash received" ||
  jsIncludes description "trf from"

/-- `parseRow` (src/ii.js, lines 56-92): missing/`n/a`/zero quantities and
keyword rows are skipped; a positive quantity with a positive debit is a
buy, a negative quantity with a positive credit is a sell, and any other
combination is silently skipped (`null`). -/
def parseRow (row : Row) : Except String (Option Tx) :=
  let dateField := getDateField row
  let description := jsLower ((rowGet row "Description").getD "")
  let quantityRaw := rowGet row "Quantity"
  if falsyStrOpt quantityRaw || jsLower (quantityRaw.getD "") = "n/a" then .ok none
  else
    let quantity := jsParseFloatOpt quantityRaw
    let _price := parsePrice (rowGet row "Price")
    let debit := parseAmount (rowGet row "Debit")
    let credit := parseAmount (rowGet row "Credit")
    if skipByDescription description || quantity.eqZero then .ok none
    else if !quantity.isFiniteNum || quantity.isNaNNum then .error "Invalid Quantity"
    else if quantity.gtZero && debit.gtZero then (parseBuyTransaction row dateField).map some
    else if quantity.ltZero && credit.gtZero then (parseSellTransaction row dateField).map some
    else .ok none

/-- `formatTransaction` (src/ii.js, lines 235-240): trades are formatted,
any other kind yields the empty string. -/
def formatTransaction (t : Tx) : String :=
  if t.kind = "BUY" || t.kind = "SELL" then
    t.kind ++ " " ++ t.date ++ " " ++ t.asset ++ " " ++ jsValToString t.amount ++
      " " ++ jsValToString t.price ++ " " ++ jsValToString t.expenses
  else ""

end II

end CgtData

namespace CgtData

namespace Fidelity

/-! ### `src/fidelity.js` — Fidelity CSV parser

The file holds two drafts of the class.  `FidelityV1` is the first
(lines 8-257: lenient `parseFloat(...) || 0` fields, sign of both `Amount`
and `Quantity` decides the direction); `FidelityV2` the second
(lines 264-518: strict numeric validation, quantity sign alone decides).
`getAssetIdentifier` is identical in both. -/

/-- `/Vanguard\s+([^,]+)/` (no flags). -/
def vanguardRE : RE :=
  reSeq [reStr "Vanguard", reWsPlus, .grp 1 (rePlus true (.cls true [(',', ',')]))]

/-- `/iShares\s+([^,]+)/` (no flags). -/
def isharesRE : RE :=
  reSeq [reStr "iShares", reWsPlus, .grp 1 (rePlus true (.cls true [(',', ',')]))]

/-- `/Baillie Gifford\s+([^,]+)/` (no flags). -/
def bgRE : RE :=
  reSeq [reStr "Baillie Gifford", reWsPlus, .grp 1 (rePlus true (.cls true [(',', ',')]))]

/-- `.replace(/\s+/g, '_')`. -/
def underscoreWs (s : String) : String := jsReplaceAll false reWsPlus 0 (constRepl "_") s

/-- `.replace(/[^a-zA-Z0-9_]/g, '')`. -/
def stripNonAlnum (s : String) : String :=
  jsReplaceAll false (.cls true [('a', 'z'), ('A', 'Z'), ('0', '9'), ('_', '_')]) 0
    (constRepl "") s

/-- `getAssetIdentifier` (src/fidelity.js, lines 165-197 and 441-473):
known fund-family prefixes, else the first three words stripped of
non-alphanumeric characters. -/
def getAssetIdentifier (row : Row) : String :=
  let investment := (rowGet row "Investments").getD ""
  let v1 : Option String :=
    if jsIncludes investment "Vanguard" then
      (jsMatch false vanguardRE 1 investment).map fun m => underscoreWs (jsTrim (capGet m 1))
    else none
  match v1 with
  | some r => r
  | none =>
    let v2 : Option String :=
      if jsIncludes investment "iShares" then
        (jsMatch false isharesRE 1 investment).map fun m => underscoreWs (jsTrim (capGet m 1))
      else none
    match v2 with
    | some r => r
    | none =>
      let v3 : Option String :=
        if jsIncludes investment "Baillie Gifford" then
          (jsMatch false bgRE 1 investment).map fun m => underscoreWs (jsTrim (capGet m 1))
        else none
      match v3 with
      | some r => r
      | none =>
        let words := (jsSplitChar ' ' investment).take 3
        stripNonAlnum (joinWith "_" words)

end Fidelity

namespace FidelityV1

/-- `formatDate` (src/fidelity.js, lines 215-232): falsy gives `''`, an
unparsable date is returned unchanged. -/
def formatDate (dateString : Option String) : String :=
  match dateString with
  | none => ""
  | some s =>
    if s = "" then ""
    else
      match jsNewDate s with
      | some (y, m, d) =>
        padStart2 (toString d) ++ "/" ++ padStart2 (toString m) ++ "/" ++ toString y
      | none => s

/-- `parseBuyTransaction` (src/fidelity.js, lines 121-136): no validation,
`Math.abs(parseFloat(...) || 0)` for the amount. -/
def parseBuyTransaction (row : Row) : Tx :=
  ⟨"BUY", formatDate (rowGet row "Completion date"), Fidelity.getAssetIdentifier row,
   ((jsParseFloatOpt (rowGet row "Quantity")).orZero).jsAbs,
   (jsParseFloatOpt (rowGet row "Price per unit")).orZero, .int 0, .undef, .undef⟩

/-- `parseSellTransaction` (src/fidelity.js, lines 143-158). -/
def parseSellTransaction (row : Row) : Tx :=
  ⟨"SELL", formatDate (rowGet row "Completion date"), Fidelity.getAssetIdentifier row,
   ((jsParseFloatOpt (rowGet row "Quantity")).orZero).jsAbs,
   ((jsParseFloatOpt (rowGet row "Price per unit")).orZero).jsAbs, .int 0, .undef, .undef⟩

/-- The keyword skip list of `parseRow` (src/fidelity.js, lines 90-99). -/
def skipByType (transactionType : String) (investment : String) : Bool :=
  jsIncludes transactionType "cash in" ||
  jsIncludes transactionType "cash out" ||
  jsIncludes transactionType "transfer out" ||
  jsIncludes transactionType "transfer to cash" ||
  jsIncludes transactionType "auto-sell for fees" ||
  jsIncludes transactionType "cash in fees" ||
  jsIncludes transactionType "cash out for buy" ||
  jsIncludes transactionType "cash in from sell" ||
  jsLower investment = "cash"

/-- `parseRow` (src/fidelity.js, lines 83-114): total — skip entries and
unmatched sign combinations yield `null`, never an error. -/
def parseRow (row : Row) : Option Tx :=
  let transactionType := jsLower ((rowGet row "Transaction type").getD "")
  let amount := (jsParseFloatOpt (rowGet row "Amount")).orZero
  let quantity := (jsParseFloatOpt (rowGet row "Quantity")).orZero
  let investment := (rowGet row "Investments").getD ""
  if skipByType transactionType investment || quantity.eqZero then none
  else if amount.gtZero && quantity.gtZero then some (parseBuyTransaction row)
  else if amount.ltZero && quantity.ltZero then some (parseSellTransaction row)
  else none

/-- `formatTransaction` (src/fidelity.js, lines 239-244): trades are
formatted, any other kind yields the empty string. -/
def formatTransaction (t : Tx) : String :=
  if t.kind = "BUY" || t.kind = "SELL" then
    t.kind ++ " " ++ t.date ++ " " ++ t.asset ++ " " ++ jsValToString t.amount ++
      " " ++ jsValToString t.price ++ " " ++ jsValToString t.expenses
  else ""

end FidelityV1

namespace FidelityV2

/-- `parseNumberStrict` (src/fidelity.js, lines 322-328). -/
def parseNumberStrict (v : Option String) (fieldName : String) : Except String JsV :=
  let n := jsParseFloatOpt v
  if !n.isFiniteNum || n.isNaNNum then .error ("Invalid " ++ fieldName)
  else .ok n

/-- `formatDate` (src/fidelity.js, lines 481-493): no falsy guard — an
unparsable input (including `undefined`) is returned unchanged. -/
def formatDate (dateString : Option String) : Option String :=
  match dateString with
  | none => none
  | some s =>
    match jsNewDate s with
    | some (y, m, d) =>
      some (padStart2 (toString d) ++ "/" ++ padStart2 (toString m) ++ "/" ++ toString y)
    | none => some s

/-- `parseBuyTransaction` (src/fidelity.js, lines 365-396): strict — the
quantity must parse to a strictly positive finite number, and the amount
is its absolute value. -/
def parseBuyTransaction (row : Row) : Except String Tx :=
  let date := formatDate (rowGet row "Completion date")
  if falsyStrOpt date then .error "Invalid or missing Completion date"
  else
    let asset := Fidelity.getAssetIdentifier row
    if asset = "" then .error "Invalid or missing Investments field"
    else
      let qty := jsParseFloatOpt (rowGet row "Quantity")
      if !qty.isFiniteNum || qty.isNaNNum || qty.leZero then .error "Invalid Quantity for BUY"
      else
        let price := jsParseFloatOpt (rowGet row "Price per unit")
        if !price.isFiniteNum || price.isNaNNum || price.leZero then
          .error "Invalid Price per unit for BUY"
        else .ok ⟨"BUY", date.getD "", asset, qty.jsAbs, price, .int 0, .undef, .undef⟩

/-- `parseSellTransaction` (src/fidelity.js, lines 403-434).  After all
validations it evaluates `this.calculateExpenses(row)`, but the second
draft of the class defines no `calculateExpenses`, so the call always
raises a `TypeError`. -/
def parseSellTransaction (row : Row) : Except String Tx :=
  let date := formatDate (rowGet row "Completion date")
  if falsyStrOpt date then .error "Invalid or missing Completion date"
  else
    let asset := Fidelity.getAssetIdentifier row
    if asset = "" then .error "Invalid or missing Investments field"
    else
      let qty := jsParseFloatOpt (rowGet row "Quantity")
      if !qty.isFiniteNum || qty.isNaNNum || qty.geZero then
        .error "Invalid Quantity for SELL (expected negative)"
      else
        let price := jsParseFloatOpt (rowGet row "Price per unit")
        if !price.isFiniteNum || price.isNaNNum || price.leZero then
          .error "Invalid Price per unit for SELL"
        else .error "TypeError: this.calculateExpenses is not a function"

/-- The keyword skip list of `parseRow` (src/fidelity.js, lines 331-340;
no `auto-sell for fees` entry in this draft). -/
def skipByType (transactionType : String) (investment : String) : Bool :=
  jsIncludes transactionType "cash in" ||
  jsIncludes transactionType "cash out" ||
  jsIncludes transactionType "transfer out" ||
  jsIncludes transactionType "transfer to cash" ||
  jsIncludes transactionType "cash in fees" ||
  jsIncludes transactionType "cash out for buy" ||
  jsIncludes transactionType "cash in from sell" ||
  jsLower investment = "cash"

/-- `parseRow` (src/fidelity.js, lines 317-358): skip entries first, then
strict quantity parse; zero quantity skips, sign decides the direction. -/
def parseRow (row : Row) : Except String (Option Tx) :=
  let transactionType := jsLower ((rowGet row "Transaction type").getD "")
  let quantityRaw := rowGet row "Quantity"
  let investment := (rowGet row "Investments").getD ""
  if skipByType transactionType investment then .ok none
  else
    match parseNumberStrict quantityRaw "Quantity" with
    | .error e => .error e
    | .ok quantity =>
      if quantity.eqZero then .ok none
      else if quantity.gtZero then (parseBuyTransaction row).map some
      else if quantity.ltZero then (parseSellTransaction row).map some
      else .ok none

/-- `formatTransaction` (src/fidelity.js, lines 500-505). -/
def formatTransaction (t : Tx) : String :=
  if t.kind = "BUY" || t.kind = "SELL" then
    t.kind ++ " " ++ t.date ++ " " ++ t.asset ++ " " ++ jsValToString t.amount ++
      " " ++ jsValToString t.price ++ " " ++ jsValToString t.expenses
  else ""

end FidelityV2

/-- A hexadecimal digit as matched by the class `[0-9A-F]` under the `i`
flag (so lowercase `a`-`f` count as well). -/
def isHexDigit (c : Char) : Bool := clsTest true false [('0', '9'), ('A', 'F')] c

/-- Soft line-break removal as the specification states it: delete every
`=` that is immediately followed by a line feed, optionally with a
carriage return in between; scanning is left to right, and a position
where no soft break starts emits its character unchanged. -/
def removeSoftBreaks : List Char → List Char
  | [] => []
  | a :: rest =>
    if a = '=' then
      match rest with
      | [] => [a]
      | b :: rest2 =>
        if b = '\n' then removeSoftBreaks rest2
        else if b = '\r' then
          match rest2 with
          | [] => [a, b]
          | c :: rest3 =>
            if c = '\n' then removeSoftBreaks rest3
            else a :: b :: removeSoftBreaks (c :: rest3)
        else a :: removeSoftBreaks (b :: rest2)
    else a :: removeSoftBreaks rest
termination_by l => l.length
decreasing_by all_goals first | omega | (simp [List.length_cons]; omega) | simp [List.length_cons]

/-- Hex-escape decoding as the specification states it: replace every
`=XX` (two hexadecimal digits, case-insensitive) with the character whose
code is `XX`; scanning is left to right and matches do not overlap. -/
def decodeHexEscapes : List Char → List Char
  | [] => []
  | a :: rest =>
    if a = '=' then
      match rest with
      | h1 :: h2 :: rest2 =>
        if isHexDigit h1 && isHexDigit h2 then
          Char.ofNat (hexVal h1 * 16 + hexVal h2) :: decodeHexEscapes rest2
        else a :: decodeHexEscapes (h1 :: h2 :: rest2)
      | [h1] => [a, h1]
      | [] => [a]
    else a :: decodeHexEscapes rest
termination_by l => l.length
decreasing_by all_goals first | omega | (simp [List.length_cons]; omega) | simp [List.length_cons]

namespace Part000

/-! ### `src/unnamed/part_000` — BullionVault email parser draft -/

/-- `decodeQuotedPrintable` (src/unnamed/part_000, lines 190-199): throw on
a non-string, otherwise delete soft line breaks, then decode `=XX` escapes.
The two regex literals are identical to the ones in src/bullionvault.js. -/
def decodeQuotedPrintable (v : JsV) : Except String JsV :=
  match v with
  | .str s =>
    .ok (.str (jsReplaceAll true BullionVault.hexRE 1 BullionVault.hexRepl
      (jsReplaceAll false BullionVault.softBreakRE 0 (constRepl "") s)))
  | _ => .error "Error: decodeQuotedPrintable expected a string"

end Part000

end CgtData

namespace CgtData

/-! ## Lemmas: comparator, insertion sort, merge -/

theorem except_isOk_iff {α : Type} (e : Except String α) :
    e.isOk = true ↔ ∃ x, e = .ok x := by
  cases e <;> simp [Except.isOk, Except.toBool]

theorem compareLines_ok_iff {a b : String} {c : ℤ} :
    compareLines a b = .ok c ↔
      ∃ x y, dateVal a = .ok x ∧ dateVal b = .ok y ∧ c = x - y := by
  unfold compareLines dateVal
  by_cases h1 : secondTok a = "" <;> by_cases h2 : secondTok b = "" <;>
    by_cases h3 : tokBad (secondTok a) = true <;> by_cases h4 : tokBad (secondTok b) = true <;>
    simp [h1, h2, h3, h4, eq_comm]

theorem compareLines_ok_of {a b : String} {x y : ℤ}
    (ha : dateVal a = .ok x) (hb : dateVal b = .ok y) :
    compareLines a b = .ok (x - y) :=
  compareLines_ok_iff.mpr ⟨x, y, ha, hb, rfl⟩

theorem keyD_of_ok {a : String} {x : ℤ} (h : dateVal a = .ok x) : keyD a = x := by
  simp [keyD, h, Except.toOption]

theorem compareLines_le_iff {a b : String} {c : ℤ} (h : compareLines a b = .ok c) :
    (c ≤ 0 ↔ dateLe a b) ∧ (0 < c → dateLe b a) := by
  obtain ⟨x, y, ha, hb, rfl⟩ := compareLines_ok_iff.mp h
  rw [dateLe, dateLe, keyD_of_ok ha, keyD_of_ok hb]
  omega

theorem insertE_perm {x : String} :
    ∀ {l out : List String}, insertE x l = .ok out → out.Perm (x :: l) := by
  intro l
  induction l with
  | nil => intro out h; simp [insertE] at h; simp [← h]
  | cons y ys ih =>
    intro out h
    simp only [insertE] at h
    cases hc : compareLines x y with
    | error e => rw [hc] at h; exact absurd h (by simp)
    | ok c =>
      rw [hc] at h
      by_cases hle : c ≤ 0
      · simp [hle] at h
        simp [← h]
      · simp [hle] at h
        cases hr : insertE x ys with
        | error e => rw [hr] at h; exact absurd h (by simp)
        | ok r =>
          rw [hr] at h
          simp at h
          subst h
          exact ((ih hr).cons y).trans (List.Perm.swap x y ys)

theorem sortE_perm : ∀ {l out : List String}, sortE l = .ok out → out.Perm l := by
  intro l
  induction l with
  | nil => intro out h; simp [sortE] at h; simp [← h]
  | cons x xs ih =>
    intro out h
    simp only [sortE] at h
    cases hs : sortE xs with
    | error e => rw [hs] at h; exact absurd h (by simp)
    | ok s =>
      rw [hs] at h
      exact (insertE_perm h).trans ((ih hs).cons x)

theorem insertE_ok_of {x : String} {kx : ℤ} (hx : dateVal x = .ok kx) :
    ∀ {l : List String}, (∀ y ∈ l, ∃ k, dateVal y = .ok k) →
      ∃ out, insertE x l = .ok out := by
  intro l
  induction l with
  | nil => intro _; exact ⟨[x], rfl⟩
  | cons y ys ih =>
    intro h
    obtain ⟨ky, hy⟩ := h y (by simp)
    have hc := compareLines_ok_of hx hy
    by_cases hle : kx - ky ≤ 0
    · exact ⟨x :: y :: ys, by simp [insertE, hc, hle]⟩
    · obtain ⟨r, hr⟩ := ih fun z hz => h z (by simp [hz])
      exact ⟨y :: r, by simp [insertE, hc, hle, hr]⟩

theorem sortE_ok_of :
    ∀ {l : List String}, (∀ y ∈ l, ∃ k, dateVal y = .ok k) →
      ∃ out, sortE l = .ok out := by
  intro l
  induction l with
  | nil => intro _; exact ⟨[], rfl⟩
  | cons x xs ih =>
    intro h
    obtain ⟨s, hs⟩ := ih fun z hz => h z (by simp [hz])
    obtain ⟨kx, hx⟩ := h x (by simp)
    obtain ⟨out, hout⟩ := insertE_ok_of hx
      (show ∀ y ∈ s, ∃ k, dateVal y = .ok k from fun z hz =>
        h z (by simp [(sortE_perm hs).mem_iff.mp hz]))
    exact ⟨out, by simp [sortE, hs, hout]⟩

end CgtData


namespace CgtData

theorem insertE_head_ok {x y : String} {ys out : List String}
    (h : insertE x (y :: ys) = .ok out) : ∃ c, compareLines x y = .ok c := by
  simp only [insertE] at h
  cases hc : compareLines x y with
  | error e => rw [hc] at h; exact absurd h (by simp)
  | ok c => exact ⟨c, rfl⟩

theorem dateVal_ok_of_compare {x y : String} {c : ℤ} (h : compareLines x y = .ok c) :
    (∃ kx, dateVal x = .ok kx) ∧ (∃ ky, dateVal y = .ok ky) := by
  obtain ⟨kx, ky, hx, hy, _⟩ := compareLines_ok_iff.mp h
  exact ⟨⟨kx, hx⟩, ⟨ky, hy⟩⟩

theorem sortE_allOk :
    ∀ {l out : List String}, sortE l = .ok out → 2 ≤ l.length →
      ∀ z ∈ l, ∃ k, dateVal z = .ok k := by
  intro l
  induction l with
  | nil => intro out _ h2; simp at h2
  | cons x xs ih =>
    intro out h hlen z hz
    simp only [sortE] at h
    cases hs : sortE xs with
    | error e => rw [hs] at h; exact absurd h (by simp)
    | ok s =>
      rw [hs] at h
      cases xs with
      | nil => simp at hlen
      | cons y ys =>
        cases ys with
        | nil =>
          have hsy : s = [y] := by
            simp [sortE, insertE] at hs
            exact hs.symm
          subst hsy
          obtain ⟨c, hc⟩ := insertE_head_ok h
          obtain ⟨hx', hy'⟩ := dateVal_ok_of_compare hc
          rcases List.mem_cons.mp hz with rfl | hz'
          · exact hx'
          · rcases List.mem_cons.mp hz' with rfl | hz''
            · exact hy'
            · simp at hz''
        | cons y2 ys2 =>
          have hall := ih hs (by simp)
          rcases List.mem_cons.mp hz with rfl | hz'
          · have hne : s ≠ [] := by
              intro he
              subst he
              have := (sortE_perm hs).symm
              simp [List.Perm.nil_eq] at this
            obtain ⟨h1, t, rfl⟩ := List.exists_cons_of_ne_nil hne
            obtain ⟨c, hc⟩ := insertE_head_ok h
            exact (dateVal_ok_of_compare hc).1
          · exact hall z hz'

theorem dateLe_trans {a b c : String} (h1 : dateLe a b) (h2 : dateLe b c) : dateLe a c :=
  le_trans h1 h2

theorem insertE_sorted {x : String} :
    ∀ {l out : List String}, l.Pairwise dateLe → insertE x l = .ok out →
      out.Pairwise dateLe := by
  intro l
  induction l with
  | nil =>
    intro out _ h
    simp [insertE] at h
    simp [← h]
  | cons y ys ih =>
    intro out hp h
    simp only [insertE] at h
    cases hc : compareLines x y with
    | error e => rw [hc] at h; exact absurd h (by simp)
    | ok c =>
      rw [hc] at h
      by_cases hle : c ≤ 0
      · simp [hle] at h
        subst h
        have hxy : dateLe x y := (compareLines_le_iff hc).1.mp hle
        refine List.Pairwise.cons ?_ hp
        intro z hz
        rcases List.mem_cons.mp hz with rfl | hz'
        · exact hxy
        · exact dateLe_trans hxy (List.rel_of_pairwise_cons hp hz')
      · simp [hle] at h
        cases hr : insertE x ys with
        | error e => rw [hr] at h; exact absurd h (by simp)
        | ok r =>
          rw [hr] at h
          simp at h
          subst h
          have hyx : dateLe y x := (compareLines_le_iff hc).2 (by omega)
          refine List.Pairwise.cons ?_ (ih (List.Pairwise.of_cons hp) hr)
          intro z hz
          rcases List.mem_cons.mp ((insertE_perm hr).mem_iff.mp hz) with rfl | hz'
          · exact hyx
          · exact List.rel_of_pairwise_cons hp hz'

theorem sortE_sorted : ∀ {l out : List String}, sortE l = .ok out → out.Pairwise dateLe := by
  intro l
  induction l with
  | nil => intro out h; simp [sortE] at h; subst h; simp
  | cons x xs ih =>
    intro out h
    simp only [sortE] at h
    cases hs : sortE xs with
    | error e => rw [hs] at h; exact absurd h (by simp)
    | ok s =>
      rw [hs] at h
      exact insertE_sorted (ih hs) h

end CgtData

namespace CgtData

theorem mem_addLine {seen : List String} {y : String} (l : String) (h : y ∈ seen) :
    y ∈ addLine seen l := by
  unfold addLine
  split_ifs <;> simp [h]

theorem self_mem_addLine {seen : List String} {l : String} (h : l ≠ "") :
    jsTrim l ∈ addLine seen l := by
  unfold addLine
  split_ifs with h1 h2
  · exact absurd h1 h
  · exact List.mem_of_elem_eq_true h2
  · simp

theorem mem_foldl_addLine {seen : List String} {y : String} :
    ∀ (L : List String), y ∈ seen → y ∈ L.foldl addLine seen := by
  intro L
  induction L generalizing seen with
  | nil => intro h; simpa
  | cons l ls ih => intro h; exact ih (mem_addLine l h)

theorem trim_mem_foldl_addLine {y : String} :
    ∀ (L : List String) (seen : List String), y ∈ L → y ≠ "" →
      jsTrim y ∈ L.foldl addLine seen := by
  intro L
  induction L with
  | nil => intro seen h; simp at h
  | cons l ls ih =>
    intro seen h hne
    rw [List.foldl_cons]
    rcases List.mem_cons.mp h with rfl | h'
    · exact mem_foldl_addLine ls (self_mem_addLine hne)
    · exact ih (addLine seen l) h' hne

theorem foldl_addLine_noop {seen : List String} :
    ∀ (L : List String), (∀ l ∈ L, l = "" ∨ jsTrim l ∈ seen) →
      L.foldl addLine seen = seen := by
  intro L
  induction L with
  | nil => intro _; rfl
  | cons l ls ih =>
    intro h
    have hstep : addLine seen l = seen := by
      unfold addLine
      split_ifs with ha hb
      · rfl
      · rfl
      · rcases h l (by simp) with rfl | hmem
        · exact absurd rfl ha
        · exact absurd (List.elem_eq_true_of_mem hmem) hb
    rw [List.foldl_cons, hstep]
    exact ih fun z hz => h z (by simp [hz])

/-- The dedup union of a line list with itself equals the union of the
list with nothing: the second pass adds no new member. -/
theorem mergeLines_self (L : List String) : mergeLines L L = mergeLines L [] := by
  unfold mergeLines
  rw [List.append_nil, List.foldl_append]
  exact foldl_addLine_noop L fun l hl => by
    by_cases hne : l = ""
    · exact Or.inl hne
    · exact Or.inr (trim_mem_foldl_addLine L [] hl hne)

theorem nodup_addLine {seen : List String} (l : String) (h : seen.Nodup) :
    (addLine seen l).Nodup := by
  unfold addLine
  split_ifs with h1 h2
  · exact h
  · exact h
  · simp [List.nodup_append, h]
    intro hmem
    exact h2 (List.elem_eq_true_of_mem hmem)

theorem nodup_foldl_addLine {seen : List String} :
    ∀ (L : List String), seen.Nodup → (L.foldl addLine seen).Nodup := by
  intro L
  induction L generalizing seen with
  | nil => intro h; simpa
  | cons l ls ih => intro h; exact ih (nodup_addLine l h)

theorem mem_foldl_addLine_src {y : String} :
    ∀ (L : List String) (seen : List String), y ∈ L.foldl addLine seen →
      y ∈ seen ∨ ∃ l ∈ L, l ≠ "" ∧ y = jsTrim l := by
  intro L
  induction L with
  | nil => intro seen h; exact Or.inl (by simpa using h)
  | cons l ls ih =>
    intro seen h
    rcases ih (addLine seen l) h with hseen | ⟨w, hw, hwne, rfl⟩
    · unfold addLine at hseen
      split_ifs at hseen with h1 h2
      · exact Or.inl hseen
      · exact Or.inl hseen
      · rcases List.mem_append.mp hseen with hs | hy
        · exact Or.inl hs
        · exact Or.inr ⟨l, by simp, h1, by simpa using hy⟩
    · exact Or.inr ⟨w, by simp [hw], hwne, rfl⟩

end CgtData

namespace CgtData

/-- C1: merging a list of well-formed formatted lines with itself is
idempotent: for every line list `L` whose non-blank lines carry (after
trimming) a parsable second-token date, `merge(L, L)` succeeds and
produces exactly the same line list as `merge(L, [])` — duplicate-free and
in the same chronological sort order. -/
theorem mergePipeline_self_idempotent (L : List String)
    (hwf : ∀ l ∈ L, l ≠ "" → (dateVal (jsTrim l)).isOk = true) :
    ∃ out, mergePipeline L L = .ok out ∧ mergePipeline L [] = .ok out ∧
      out.Nodup ∧ out.Pairwise dateLe := by
  have hself : mergeLines L L = mergeLines L [] := mergeLines_self L
  have hallok : ∀ z ∈ mergeLines L [], ∃ k, dateVal z = .ok k := by
    intro z hz
    rcases mem_foldl_addLine_src (L ++ []) [] hz with h0 | ⟨l, hl, hlne, rfl⟩
    · simp at h0
    · exact (except_isOk_iff _).mp (hwf l (by simpa using hl) hlne)
  obtain ⟨out, hout⟩ := sortE_ok_of hallok
  refine ⟨out, ?_, ?_, ?_, sortE_sorted hout⟩
  · simpa [mergePipeline, hself] using hout
  · simpa [mergePipeline] using hout
  · exact (sortE_perm hout).symm.nodup (nodup_foldl_addLine (L ++ []) (by simp))

/-- Witness for C1 at a concrete two-line list. -/
theorem mergePipeline_self_idempotent_witness :
    ∃ out, mergePipeline ["SELL 02/01/2021 B 1 2 0", "BUY 01/01/2020 A 1 2 0"]
             ["SELL 02/01/2021 B 1 2 0", "BUY 01/01/2020 A 1 2 0"] = .ok out ∧
      mergePipeline ["SELL 02/01/2021 B 1 2 0", "BUY 01/01/2020 A 1 2 0"] [] = .ok out ∧
      out.Nodup ∧ out.Pairwise dateLe :=
  mergePipeline_self_idempotent ["SELL 02/01/2021 B 1 2 0", "BUY 01/01/2020 A 1 2 0"]
    (by decide)

/-- C2 counterexample: a merge input consisting of one single malformed
line does not abort — the sort of a one-element array never invokes the
comparator, so the pipeline succeeds and emits the malformed line. -/
theorem mergePipeline_malformed_singleton_ok :
    (dateVal "garbage").isOk = false ∧ mergePipeline ["garbage"] [] = .ok ["garbage"] := by
  constructor
  · decide
  · decide

/-- C2 (amended): when the merged, deduplicated list has at least two
lines, any line whose second token fails to parse as a (truthy)
day/month/year aborts the whole pipeline; and when every merged line
parses, the pipeline succeeds and returns a chronologically ordered
permutation.  (A malformed line that ends up alone in the merged list is
returned unchanged, since the sort comparator is never invoked.) -/
theorem mergePipeline_dates (existing results : List String) :
    (2 ≤ (mergeLines existing results).length →
      (∃ l ∈ mergeLines existing results, (dateVal l).isOk = false) →
      (mergePipeline existing results).isOk = false)
    ∧ ((∀ l ∈ mergeLines existing results, (dateVal l).isOk = true) →
      ∃ out, mergePipeline existing results = .ok out ∧
        out.Perm (mergeLines existing results) ∧ out.Pairwise dateLe) := by
  constructor
  · intro hlen hbad
    obtain ⟨l, hl, hbadl⟩ := hbad
    cases hok : mergePipeline existing results with
    | error e => rfl
    | ok out =>
      obtain ⟨k, hk⟩ := sortE_allOk hok hlen l hl
      rw [hk] at hbadl
      simp [Except.isOk, Except.toBool] at hbadl
  · intro hall
    obtain ⟨out, hout⟩ := sortE_ok_of fun z hz => (except_isOk_iff _).mp (hall z hz)
    exact ⟨out, hout, sortE_perm hout, sortE_sorted hout⟩

/-- Witness for C2 (amended), both conjuncts at concrete inputs. -/
theorem mergePipeline_dates_witness :
    (mergePipeline ["BUY 01/01/2020 A 1 1 0", "garbage x y"] []).isOk = false ∧
    (∃ out, mergePipeline ["x 15/06/2021 a", "x 01/01/2020 b"] [] = .ok out ∧
      out.Perm (mergeLines ["x 15/06/2021 a", "x 01/01/2020 b"] []) ∧
      out.Pairwise dateLe) :=
  ⟨(mergePipeline_dates ["BUY 01/01/2020 A 1 1 0", "garbage x y"] []).1 (by decide)
      ⟨"garbage x y", by decide, by decide⟩,
   (mergePipeline_dates ["x 15/06/2021 a", "x 01/01/2020 b"] []).2 (by decide)⟩

/-- C10: `sortTransactionsChronologically` sorts its argument in place:
the returned value is the very same array object (same reference), whose
contents have been replaced by a chronologically sorted permutation — so in
general the original element order of the caller's array is not preserved,
as the concrete instance in the second conjunct shows. -/
theorem sortTransactionsChronologically_inPlace :
    (∀ a out, sortTransactionsChronologically a = .ok out →
      out.ref = a.ref ∧ out.data.Perm a.data ∧ out.data.Pairwise dateLe)
    ∧ (∃ a out, sortTransactionsChronologically a = .ok out ∧ out.ref = a.ref ∧
        out.data ≠ a.data) := by
  constructor
  · intro a out h
    unfold sortTransactionsChronologically at h
    cases hs : sortE a.data with
    | error e => rw [hs] at h; exact absurd h (by simp)
    | ok l =>
      rw [hs] at h
      simp at h
      subst h
      exact ⟨rfl, sortE_perm hs, sortE_sorted hs⟩
  · exact ⟨⟨7, ["BUY 02/01/2020 A 1 1 0", "BUY 01/01/2020 B 1 1 0"]⟩,
      ⟨7, ["BUY 01/01/2020 B 1 1 0", "BUY 02/01/2020 A 1 1 0"]⟩, by decide, rfl, by decide⟩

/-- Witness for C10 at a concrete array object. -/
theorem sortTransactionsChronologically_inPlace_witness :
    (⟨3, ["BUY 01/01/2020 B 1 1 0", "BUY 02/01/2020 A 1 1 0"]⟩ : JsArray).ref =
      (⟨3, ["BUY 02/01/2020 A 1 1 0", "BUY 01/01/2020 B 1 1 0"]⟩ : JsArray).ref ∧
    (⟨3, ["BUY 01/01/2020 B 1 1 0", "BUY 02/01/2020 A 1 1 0"]⟩ : JsArray).data.Perm
      (⟨3, ["BUY 02/01/2020 A 1 1 0", "BUY 01/01/2020 B 1 1 0"]⟩ : JsArray).data ∧
    (⟨3, ["BUY 01/01/2020 B 1 1 0", "BUY 02/01/2020 A 1 1 0"]⟩ : JsArray).data.Pairwise dateLe :=
  sortTransactionsChronologically_inPlace.1
    ⟨3, ["BUY 02/01/2020 A 1 1 0", "BUY 01/01/2020 B 1 1 0"]⟩
    ⟨3, ["BUY 01/01/2020 B 1 1 0", "BUY 02/01/2020 A 1 1 0"]⟩ (by decide)

end CgtData

namespace CgtData

theorem jsAbs_pos_of_valid {x : JsV} (hfin : x.jsAbs.isFiniteNum = true)
    (hz : x.jsAbs.eqZero = false) : x.jsAbs.isPosNum = true := by
  cases x <;> simp_all [JsV.jsAbs, JsV.isFiniteNum, JsV.eqZero, JsV.isPosNum]

theorem II.ii_parseBuy_amount_pos {row : Row} {df : String} {t : Tx}
    (h : II.parseBuyTransaction row df = .ok t) : t.amount.isPosNum = true := by
  unfold II.parseBuyTransaction at h
  simp only [] at h
  split_ifs at h with h1 h2 h3 h4
  simp only [Except.ok.injEq] at h
  subst h
  simp only [Bool.or_eq_true, Bool.not_eq_true'] at h3
  push_neg at h3
  exact jsAbs_pos_of_valid (by simpa using h3.1.1) (by simpa using h3.2)

theorem II.ii_parseSell_amount_pos {row : Row} {df : String} {t : Tx}
    (h : II.parseSellTransaction row df = .ok t) : t.amount.isPosNum = true := by
  unfold II.parseSellTransaction at h
  simp only [] at h
  split_ifs at h with h1 h2 h3 h4
  simp only [Except.ok.injEq] at h
  subst h
  simp only [Bool.or_eq_true, Bool.not_eq_true'] at h3
  push_neg at h3
  exact jsAbs_pos_of_valid (by simpa using h3.1.1) (by simpa using h3.2)

theorem II.ii_parseRow_amount_pos {row : Row} {t : Tx}
    (h : II.parseRow row = .ok (some t)) : t.amount.isPosNum = true := by
  unfold II.parseRow at h
  simp only [] at h
  split_ifs at h with h1 h2 h3 h4 h5
  any_goals exact Option.noConfusion (Except.ok.inj h)
  · cases hb : II.parseBuyTransaction row (II.getDateField row) with
    | error e => rw [hb] at h; exact Except.noConfusion h
    | ok u =>
      rw [hb] at h
      simp [Except.map] at h
      subst h
      exact II.ii_parseBuy_amount_pos hb
  · cases hs : II.parseSellTransaction row (II.getDateField row) with
    | error e => rw [hs] at h; exact Except.noConfusion h
    | ok u =>
      rw [hs] at h
      simp [Except.map] at h
      subst h
      exact II.ii_parseSell_amount_pos hs

theorem jsAbs_pos_of_gtZero {x : JsV} (hgt : x.gtZero = true) (hfin : x.isFiniteNum = true) :
    x.jsAbs.isPosNum = true := by
  cases x <;> simp_all [JsV.jsAbs, JsV.gtZero, JsV.isFiniteNum, JsV.isPosNum] <;> omega

theorem jsAbs_pos_of_ltZero {x : JsV} (hlt : x.ltZero = true) (hfin : x.isFiniteNum = true) :
    x.jsAbs.isPosNum = true := by
  cases x <;> simp_all [JsV.jsAbs, JsV.ltZero, JsV.isFiniteNum, JsV.isPosNum] <;> omega

theorem orZero_gtZero_pos {x : JsV} (hfin : x.isFiniteNum = true)
    (hgt : x.orZero.gtZero = true) : x.orZero.jsAbs.isPosNum = true := by
  cases x with
  | num d =>
    by_cases hz : d.m = 0 <;>
      simp_all [JsV.orZero, JsV.int, JsV.jsAbs, JsV.gtZero, JsV.isPosNum] <;> omega
  | _ => simp_all [JsV.isFiniteNum]

theorem orZero_ltZero_pos {x : JsV} (hfin : x.isFiniteNum = true)
    (hlt : x.orZero.ltZero = true) : x.orZero.jsAbs.isPosNum = true := by
  cases x with
  | num d =>
    by_cases hz : d.m = 0 <;>
      simp_all [JsV.orZero, JsV.int, JsV.jsAbs, JsV.ltZero, JsV.isPosNum] <;> omega
  | _ => simp_all [JsV.isFiniteNum]

theorem jsAbs_pos_of_not_leZero {x : JsV} (hfin : x.isFiniteNum = true)
    (hle : x.leZero = false) : x.jsAbs.isPosNum = true := by
  cases x <;> simp_all [JsV.jsAbs, JsV.leZero, JsV.isFiniteNum, JsV.isPosNum] <;> omega

theorem nonZero_of_not_eqZero {x : JsV} (hfin : x.isFiniteNum = true)
    (hz : x.eqZero = false) : x.isNonZeroNum = true := by
  cases x <;> simp_all [JsV.eqZero, JsV.isFiniteNum, JsV.isNonZeroNum]

theorem FidelityV1.fid1_parseRow_amount_pos {row : Row} {t : Tx}
    (h : FidelityV1.parseRow row = some t)
    (hfin : (jsParseFloatOpt (rowGet row "Quantity")).isFiniteNum = true) :
    t.amount.isPosNum = true := by
  unfold FidelityV1.parseRow at h
  simp only [] at h
  split_ifs at h with h1 h2 h3
  · simp only [Option.some.injEq] at h
    subst h
    simp only [Bool.and_eq_true] at h2
    exact orZero_gtZero_pos hfin h2.2
  · simp only [Option.some.injEq] at h
    subst h
    simp only [Bool.and_eq_true] at h3
    exact orZero_ltZero_pos hfin h3.2

theorem FidelityV2.fid2_parseBuy_amount_pos {row : Row} {t : Tx}
    (h : FidelityV2.parseBuyTransaction row = .ok t) : t.amount.isPosNum = true := by
  unfold FidelityV2.parseBuyTransaction at h
  simp only [] at h
  split_ifs at h with h1 h2 h3 h4
  simp only [Except.ok.injEq] at h
  subst h
  simp only [Bool.or_eq_true, Bool.not_eq_true'] at h3
  push_neg at h3
  exact jsAbs_pos_of_not_leZero (by simpa using h3.1.1) (by simpa using h3.2)

theorem FidelityV2.parseSell_never_ok {row : Row} {t : Tx}
    (h : FidelityV2.parseSellTransaction row = .ok t) : t.amount.isPosNum = true := by
  unfold FidelityV2.parseSellTransaction at h
  simp only [] at h
  split_ifs at h

theorem FidelityV2.fid2_parseRow_amount_pos {row : Row} {t : Tx}
    (h : FidelityV2.parseRow row = .ok (some t)) : t.amount.isPosNum = true := by
  unfold FidelityV2.parseRow at h
  simp only [] at h
  split_ifs at h with h1
  · exact Option.noConfusion (Except.ok.inj h)
  · cases hq : FidelityV2.parseNumberStrict (rowGet row "Quantity") "Quantity" with
    | error e => rw [hq] at h; exact Except.noConfusion h
    | ok quantity =>
      rw [hq] at h
      simp only [] at h
      split_ifs at h with h2 h3 h4
      · exact Option.noConfusion (Except.ok.inj h)
      · cases hb : FidelityV2.parseBuyTransaction row with
        | error e => rw [hb] at h; exact Except.noConfusion h
        | ok u =>
          rw [hb] at h
          simp [Except.map] at h
          subst h
          exact FidelityV2.fid2_parseBuy_amount_pos hb
      · cases hs : FidelityV2.parseSellTransaction row with
        | error e => rw [hs] at h; exact Except.noConfusion h
        | ok u =>
          rw [hs] at h
          simp [Except.map] at h
          subst h
          exact FidelityV2.parseSell_never_ok hs
      · exact Option.noConfusion (Except.ok.inj h)

theorem Freetrade.parseTransaction_amount_nonzero {row : Row} {t : Tx}
    (h : Freetrade.parseTransaction row = .ok t) : t.amount.isNonZeroNum = true := by
  unfold Freetrade.parseTransaction at h
  simp only [] at h
  split_ifs at h with h1 h2 h3 h4 <;>
    (simp only [Except.ok.injEq] at h
     subst h
     simp only [Bool.or_eq_true, Bool.not_eq_true'] at h3
     push_neg at h3
     exact nonZero_of_not_eqZero (by simpa using h3.1.1) (by simpa using h3.2))


/-- C3 counterexample: the Freetrade parser applies no sign normalization,
so this SELL order row with a negative source quantity yields a canonical
record whose `amount` is the negative number `-5` — not a strictly
positive magnitude. -/
theorem freetrade_sell_negative_amount :
    (Freetrade.parseRow [("Type", "ORDER"), ("Buy / Sell", "SELL"), ("Timestamp", "xx"),
        ("ISIN", "IE00TEST"), ("Quantity", "-5"),
        ("Price per Share in Account Currency", "50")]).map
        (Option.map fun t => (t.kind, t.amount, t.amount.isPosNum))
      = .ok (some ("SELL", JsV.num ⟨-5, 0⟩, false)) := by decide

/-- C3 (amended): the Interactive Investor and Fidelity parsers normalize
with `Math.abs`, so every BUY/SELL record they produce has a strictly
positive finite amount (for the lenient first Fidelity draft, provided the
quantity cell parses to a finite number); the Freetrade parser only
validates the parsed quantity as finite and non-zero and keeps its source
sign, so a SELL row with a negative quantity yields a negative amount. -/
theorem parser_amount_signs :
    (∀ row t, II.parseRow row = .ok (some t) → t.amount.isPosNum = true)
    ∧ (∀ row t, FidelityV1.parseRow row = some t →
        (jsParseFloatOpt (rowGet row "Quantity")).isFiniteNum = true →
        t.amount.isPosNum = true)
    ∧ (∀ row t, FidelityV2.parseRow row = .ok (some t) → t.amount.isPosNum = true)
    ∧ (∀ row t, Freetrade.parseTransaction row = .ok t → t.amount.isNonZeroNum = true) :=
  ⟨fun _ _ h => II.ii_parseRow_amount_pos h,
   fun _ _ h hfin => FidelityV1.fid1_parseRow_amount_pos h hfin,
   fun _ _ h => FidelityV2.fid2_parseRow_amount_pos h,
   fun _ _ h => Freetrade.parseTransaction_amount_nonzero h⟩

/-- Witness for C3 (amended): all four conjuncts applied at concrete rows. -/
theorem parser_amount_signs_witness :
    (Tx.mk "BUY" "01/01/2020" "ABC" (JsV.num ⟨5, 0⟩) (JsV.num ⟨10, 0⟩) (JsV.int 0)
        .undef .undef).amount.isPosNum = true ∧
    (Tx.mk "BUY" "xx" "Acme_Global_Fund" (JsV.num ⟨10, 0⟩) (JsV.num ⟨50, 0⟩) (JsV.int 0)
        .undef .undef).amount.isPosNum = true ∧
    (Tx.mk "BUY" "xx" "Acme_Global_Fund" (JsV.num ⟨10, 0⟩) (JsV.num ⟨50, 0⟩) (JsV.int 0)
        .undef .undef).amount.isPosNum = true ∧
    (Tx.mk "SELL" "NaN/NaN/NaN" "IE00TEST" (JsV.num ⟨-5, 0⟩) (JsV.num ⟨50, 0⟩) (JsV.int 0)
        .undef .undef).amount.isNonZeroNum = true :=
  ⟨parser_amount_signs.1
      [("Date", "01/01/2020"), ("Symbol", "ABC"), ("Quantity", "5"), ("Price", "£10"),
       ("Debit", "£50.00"), ("Description", "purchase of ABC")] _ (by decide),
   parser_amount_signs.2.1
      [("Completion date", "xx"), ("Transaction type", "Buy"),
       ("Investments", "Acme Global Fund"), ("Amount", "500"), ("Quantity", "10"),
       ("Price per unit", "50")] _ (by decide) (by decide),
   parser_amount_signs.2.2.1
      [("Completion date", "xx"), ("Transaction type", "Buy"),
       ("Investments", "Acme Global Fund"), ("Amount", "500"), ("Quantity", "10"),
       ("Price per unit", "50")] _ (by decide),
   parser_amount_signs.2.2.2
      [("Type", "ORDER"), ("Buy / Sell", "SELL"), ("Timestamp", "xx"),
       ("ISIN", "IE00TEST"), ("Quantity", "-5"),
       ("Price per Share in Account Currency", "50")] _ (by decide)⟩

/-- C4 counterexample: a zero-quantity Freetrade order row is not silently
excluded — `parseRow` classifies it as a transaction and
`parseTransaction` throws `Invalid Quantity`. -/
theorem freetrade_zero_quantity_throws :
    Freetrade.parseRow [("Type", "ORDER"), ("Buy / Sell", "BUY"), ("Timestamp", "xx"),
        ("ISIN", "IE00TEST"), ("Quantity", "0"),
        ("Price per Share in Account Currency", "50")]
      = .error "Invalid Quantity" := by decide

theorem FidelityV2.parseNumberStrict_of_zero {v : Option String} {f : String}
    (hz : (jsParseFloatOpt v).eqZero = true) :
    FidelityV2.parseNumberStrict v f = .ok (jsParseFloatOpt v) := by
  unfold FidelityV2.parseNumberStrict
  cases hv : jsParseFloatOpt v <;>
    simp_all [JsV.eqZero, JsV.isFiniteNum, JsV.isNaNNum]

/-- C4 (amended): a row whose quantity cell parses to exactly zero is
silently excluded — no record, no error — by the Interactive Investor
parser and by both Fidelity drafts; the Freetrade parser instead throws on
a zero-quantity order row (and classifies it as a transaction first). -/
theorem zero_quantity_rows :
    (∀ row q, rowGet row "Quantity" = some q → (jsParseFloat q).eqZero = true →
      II.parseRow row = .ok none)
    ∧ (∀ row, ((jsParseFloatOpt (rowGet row "Quantity")).orZero).eqZero = true →
      FidelityV1.parseRow row = none)
    ∧ (∀ row, (jsParseFloatOpt (rowGet row "Quantity")).eqZero = true →
      FidelityV2.parseRow row = .ok none)
    ∧ (∀ row, (rowGet row "Type").map jsLower = some "order" →
      ((rowGet row "Buy / Sell").map jsLower = some "buy" ∨
        (rowGet row "Buy / Sell").map jsLower = some "sell") →
      (jsParseFloatOpt (rowGet row "Quantity")).eqZero = true →
      ∃ e, Freetrade.parseRow row = .error e) := by
  refine ⟨?_, ?_, ?_, ?_⟩
  · intro row q hq hz
    unfold II.parseRow
    simp only []
    rw [hq]
    simp [jsParseFloatOpt, hz]
  · intro row hz
    unfold FidelityV1.parseRow
    simp only []
    simp [hz]
  · intro row hz
    unfold FidelityV2.parseRow
    simp only []
    split_ifs with h1
    · rfl
    · rw [FidelityV2.parseNumberStrict_of_zero hz]
      simp [hz]
  · intro row htype hbs hz
    unfold Freetrade.parseRow
    simp only []
    rw [if_pos]
    · unfold Freetrade.parseTransaction
      simp only []
      split_ifs with h1 h2 h3 h4
      all_goals first
        | exact ⟨_, rfl⟩
        | exact absurd h3 (by simp_all [JsV.eqZero])
    · rcases hbs with hb | hb <;> simp [htype, hb]

/-- Witness for C4 (amended): all four conjuncts at concrete rows. -/
theorem zero_quantity_rows_witness :
    II.parseRow [("Date", "01/01/2020"), ("Symbol", "ABC"), ("Quantity", "0"),
        ("Price", "£10"), ("Debit", "£50.00"), ("Description", "x")] = .ok none ∧
    FidelityV1.parseRow [("Completion date", "xx"), ("Transaction type", "Buy"),
        ("Investments", "Acme Global Fund"), ("Amount", "500"), ("Quantity", "0"),
        ("Price per unit", "50")] = none ∧
    FidelityV2.parseRow [("Completion date", "xx"), ("Transaction type", "Buy"),
        ("Investments", "Acme Global Fund"), ("Amount", "500"), ("Quantity", "0"),
        ("Price per unit", "50")] = .ok none ∧
    ∃ e, Freetrade.parseRow [("Type", "ORDER"), ("Buy / Sell", "BUY"), ("Timestamp", "xx"),
        ("ISIN", "IE00TEST"), ("Quantity", "0"),
        ("Price per Share in Account Currency", "50")] = .error e :=
  ⟨zero_quantity_rows.1 _ "0" (by decide) (by decide),
   zero_quantity_rows.2.1 _ (by decide),
   zero_quantity_rows.2.2.1 _ (by decide),
   zero_quantity_rows.2.2.2 _ (by decide) (Or.inl (by decide)) (by decide)⟩

theorem isNaN_false_of_finite {x : JsV} (h : x.isFiniteNum = true) : x.isNaNNum = false := by
  cases x <;> simp_all [JsV.isFiniteNum, JsV.isNaNNum]

/-- C5 counterexample: an Interactive Investor row the classifier does not
skip, with a positive parsed quantity but neither a positive debit nor a
positive credit — the direction signal is absent, and `parseRow` silently
returns no record instead of failing. -/
theorem ii_ambiguous_direction_silent :
    II.parseAmount (rowGet [("Date", "01/01/2020"), ("Symbol", "ABC"), ("Quantity", "5"),
        ("Price", "£10"), ("Description", "purchase of ABC")] "Debit") = .int 0 ∧
    II.parseAmount (rowGet [("Date", "01/01/2020"), ("Symbol", "ABC"), ("Quantity", "5"),
        ("Price", "£10"), ("Description", "purchase of ABC")] "Credit") = .int 0 ∧
    (jsParseFloatOpt (rowGet [("Date", "01/01/2020"), ("Symbol", "ABC"), ("Quantity", "5"),
        ("Price", "£10"), ("Description", "purchase of ABC")] "Quantity")).gtZero = true ∧
    II.parseRow [("Date", "01/01/2020"), ("Symbol", "ABC"), ("Quantity", "5"),
        ("Price", "£10"), ("Description", "purchase of ABC")] = .ok none := by
  refine ⟨by decide, by decide, by decide, by decide⟩

/-- C5 (amended): when the Interactive Investor classifier does not skip a
row and the parsed quantity is a non-zero finite number, an ambiguous
direction signal — no positive debit matching a positive quantity and no
positive credit matching a negative quantity — makes `parseRow` silently
produce no record (`null`); it does not raise an error. -/
theorem ii_parseRow_ambiguous_null (row : Row) :
    falsyStrOpt (rowGet row "Quantity") = false →
    jsLower ((rowGet row "Quantity").getD "") ≠ "n/a" →
    II.skipByDescription (jsLower ((rowGet row "Description").getD "")) = false →
    (jsParseFloatOpt (rowGet row "Quantity")).eqZero = false →
    (jsParseFloatOpt (rowGet row "Quantity")).isFiniteNum = true →
    ¬((jsParseFloatOpt (rowGet row "Quantity")).gtZero = true ∧
      (II.parseAmount (rowGet row "Debit")).gtZero = true) →
    ¬((jsParseFloatOpt (rowGet row "Quantity")).ltZero = true ∧
      (II.parseAmount (rowGet row "Credit")).gtZero = true) →
    II.parseRow row = .ok none := by
  intro h1 h2 h3 h4 h5 h6 h7
  unfold II.parseRow
  simp only []
  split_ifs with c1 c2 c3 c4 c5
  · rfl
  · rfl
  · exact absurd c3 (by simp_all [isNaN_false_of_finite h5])
  · exact absurd ((Bool.and_eq_true _ _).mp c4) h6
  · exact absurd ((Bool.and_eq_true _ _).mp c5) h7
  · rfl

/-- Witness for C5 (amended) at a concrete ambiguous row. -/
theorem ii_parseRow_ambiguous_null_witness :
    II.parseRow [("Date", "02/02/2021"), ("Symbol", "XYZ"), ("Quantity", "7"),
        ("Price", "£3"), ("Description", "stock purchase")] = .ok none :=
  ii_parseRow_ambiguous_null _ (by decide) (by decide) (by decide) (by decide)
    (by decide) (by decide) (by decide)

/-- C6 counterexample: an email whose monetary fields are denominated in
USD is not a hard failure for `src/bullionvault.js` — GBP is hard-wired in
the extraction regexes, so the summary line fails to match and the email
is silently skipped (`null`), with no error raised. -/
theorem bullionvault_nonGBP_silently_skipped :
    BullionVault.parseEmailFile
      "Date: Mon\nSummary: Buy 1kg @ USD 100/kg Deal time: x" = .ok none := by decide

/-- C6 (amended): only the draft parser (src/unnamed/part_001), which
captures an explicit currency token next to the consideration and
commission amounts, raises on a non-GBP token; `src/bullionvault.js`
instead hard-codes `GBP` in its regexes, so a non-GBP email simply fails
the summary match and is silently skipped. -/
theorem part001_nonGBP_currency_fails (content label : String) :
    (∀ cur, Part001.considerationCurrencyOf content = some cur → cur ≠ "GBP" →
      (Part001.parseEmailString content label).isOk = false)
    ∧ (∀ cur, Part001.commissionCurrencyOf content = some cur → cur ≠ "GBP" →
      (Part001.parseEmailString content label).isOk = false) := by
  constructor
  · intro cur hc hne
    unfold Part001.considerationCurrencyOf at hc
    obtain ⟨cm, hcm, hcur⟩ := Option.map_eq_some'.mp hc
    unfold Part001.parseEmailString
    simp only []
    cases hsm : jsMatch true Part001.summaryOrDealRE 3 content with
    | none => rfl
    | some sm =>
      rw [hcm]
      cases hcom : jsMatch true Part001.commissionRE 2 content with
      | none => rfl
      | some com =>
        simp only []
        rw [if_pos (hcur ▸ hne)]
        rfl
  · intro cur hc hne
    unfold Part001.commissionCurrencyOf at hc
    obtain ⟨com, hcom, hcur⟩ := Option.map_eq_some'.mp hc
    unfold Part001.parseEmailString
    simp only []
    cases hsm : jsMatch true Part001.summaryOrDealRE 3 content with
    | none => rfl
    | some sm =>
      cases hcm : jsMatch true Part001.considerationRE 2 content with
      | none => rfl
      | some cm =>
        rw [hcom]
        simp only []
        by_cases hgbp : jsUpper (capGet cm 1) = "GBP"
        · rw [if_neg (by simp [hgbp]), if_pos (hcur ▸ hne)]
          rfl
        · rw [if_pos hgbp]
          rfl

/-- Witness for C6 (amended): the draft parser rejects a captured USD
consideration currency and a captured USD commission currency. -/
theorem part001_nonGBP_currency_fails_witness :
    (Part001.parseEmailString "Consideration: USD 45,000.00" "m1").isOk = false ∧
    (Part001.parseEmailString "Consideration: GBP 100.00 Commission: USD 5.00" "m2").isOk = false :=
  ⟨(part001_nonGBP_currency_fails "Consideration: USD 45,000.00" "m1").1 "USD"
      (by decide) (by decide),
   (part001_nonGBP_currency_fails "Consideration: GBP 100.00 Commission: USD 5.00" "m2").2 "USD"
      (by decide) (by decide)⟩

/-- C7 counterexample: a record with an unknown kind is not a hard failure
for `src/freetrade.js` — `formatTransaction` returns the empty string, and
the `.filter(Boolean)` of `parseToFormat` then drops the record from the
output silently. -/
theorem freetrade_unknown_kind_dropped :
    Freetrade.formatTransaction
        ⟨"FOO", "01/01/2020", "X", .int 1, .int 2, .int 0, .undef, .undef⟩ = "" ∧
    Freetrade.formatLines
        [⟨"FOO", "01/01/2020", "X", .int 1, .int 2, .int 0, .undef, .undef⟩] = [] := by
  exact ⟨rfl, rfl⟩

/-- C7 (amended): only the draft email formatter (src/unnamed/part_001)
raises on an unknown kind; the formatters of freetrade.js, ii.js,
fidelity.js and bullionvault.js return the empty string instead, and
freetrade.js additionally filters those empty lines out of its output, so
an unknown-kind record is silently dropped there. -/
theorem formatTransaction_unknown_kind (t : Tx) :
    (t.kind ∉ (["BUY", "SELL", "DIVIDEND", "CAPRETURN", "SPLIT", "UNSPLIT"] : List String) →
      Freetrade.formatTransaction t = "" ∧ Freetrade.formatLines [t] = [])
    ∧ (t.kind ∉ (["BUY", "SELL"] : List String) →
      BullionVault.formatTransaction t = "" ∧ II.formatTransaction t = "" ∧
      FidelityV1.formatTransaction t = "" ∧ FidelityV2.formatTransaction t = "" ∧
      (Part001.formatTransaction t).isOk = false) := by
  constructor
  · intro h
    simp only [List.mem_cons, List.mem_singleton, not_or] at h
    obtain ⟨h1, h2, h3, h4, h5, h6, _⟩ := h
    have hf : Freetrade.formatTransaction t = "" := by
      simp [Freetrade.formatTransaction, h1, h2, h3, h4, h5, h6]
    exact ⟨hf, by simp [Freetrade.formatLines, hf]⟩
  · intro h
    simp only [List.mem_cons, List.mem_singleton, not_or] at h
    obtain ⟨h1, h2, _⟩ := h
    refine ⟨?_, ?_, ?_, ?_, ?_⟩
    · simp [BullionVault.formatTransaction, h1, h2]
    · simp [II.formatTransaction, h1, h2]
    · simp [FidelityV1.formatTransaction, h1, h2]
    · simp [FidelityV2.formatTransaction, h1, h2]
    · simp [Part001.formatTransaction, h1, h2, Except.isOk, Except.toBool]

/-- Witness for C7 (amended) at a concrete unknown-kind record. -/
theorem formatTransaction_unknown_kind_witness :
    (Freetrade.formatTransaction
        ⟨"SPINOFF", "01/01/2020", "X", .int 1, .int 2, .int 0, .undef, .undef⟩ = "" ∧
      Freetrade.formatLines
        [⟨"SPINOFF", "01/01/2020", "X", .int 1, .int 2, .int 0, .undef, .undef⟩] = []) ∧
    (BullionVault.formatTransaction
        ⟨"SPINOFF", "01/01/2020", "X", .int 1, .int 2, .int 0, .undef, .undef⟩ = "" ∧
      II.formatTransaction
        ⟨"SPINOFF", "01/01/2020", "X", .int 1, .int 2, .int 0, .undef, .undef⟩ = "" ∧
      FidelityV1.formatTransaction
        ⟨"SPINOFF", "01/01/2020", "X", .int 1, .int 2, .int 0, .undef, .undef⟩ = "" ∧
      FidelityV2.formatTransaction
        ⟨"SPINOFF", "01/01/2020", "X", .int 1, .int 2, .int 0, .undef, .undef⟩ = "" ∧
      (Part001.formatTransaction
        ⟨"SPINOFF", "01/01/2020", "X", .int 1, .int 2, .int 0, .undef, .undef⟩).isOk = false) :=
  ⟨(formatTransaction_unknown_kind _).1 (by decide),
   (formatTransaction_unknown_kind _).2 (by decide)⟩

/-- C9: the email content decoder's public transforms are total at their
interface: for every value that is not a string, and for the empty string,
both `decodeQuotedPrintable` and `stripHtml` of `src/bullionvault.js`
return the input unchanged and raise nothing. -/
theorem decoder_non_string_identity (v : JsV) (h : v.isNonEmptyStr = false) :
    BullionVault.decodeQuotedPrintable v = v ∧ BullionVault.stripHtml v = v := by
  cases v <;>
    simp_all [JsV.isNonEmptyStr, BullionVault.decodeQuotedPrintable, BullionVault.stripHtml]

/-- Witness for C9 at `null`, `undefined`, a number and the empty string. -/
theorem decoder_non_string_identity_witness :
    (BullionVault.decodeQuotedPrintable .null = .null ∧ BullionVault.stripHtml .null = .null) ∧
    (BullionVault.decodeQuotedPrintable .undef = .undef ∧ BullionVault.stripHtml .undef = .undef) ∧
    (BullionVault.decodeQuotedPrintable (.int 7) = .int 7 ∧ BullionVault.stripHtml (.int 7) = .int 7) ∧
    (BullionVault.decodeQuotedPrintable (.str "") = .str "" ∧ BullionVault.stripHtml (.str "") = .str "") :=
  ⟨decoder_non_string_identity .null (by decide),
   decoder_non_string_identity .undef (by decide),
   decoder_non_string_identity (.int 7) (by decide),
   decoder_non_string_identity (.str "") (by decide)⟩

/-- Sanity samples for `isHexDigit`. -/
theorem isHexDigit_samples :
    isHexDigit '0' = true ∧ isHexDigit '9' = true ∧ isHexDigit 'A' = true ∧
    isHexDigit 'F' = true ∧ isHexDigit 'a' = true ∧ isHexDigit 'f' = true ∧
    isHexDigit 'G' = false ∧ isHexDigit 'g' = false ∧ isHexDigit '=' = false := by decide

theorem rsb_nil : removeSoftBreaks [] = [] := by
  conv_lhs => unfold removeSoftBreaks

theorem rsb_cons_ne (a : Char) (rest : List Char) (ha : ¬a = '=') :
    removeSoftBreaks (a :: rest) = a :: removeSoftBreaks rest := by
  conv_lhs => unfold removeSoftBreaks
  simp [ha]

theorem rsb_eq_nil : removeSoftBreaks ['='] = ['='] := by
  conv_lhs => unfold removeSoftBreaks
  simp

theorem rsb_lf (rest : List Char) :
    removeSoftBreaks ('=' :: '\n' :: rest) = removeSoftBreaks rest := by
  conv_lhs => unfold removeSoftBreaks
  simp

theorem rsb_crlf (rest : List Char) :
    removeSoftBreaks ('=' :: '\r' :: '\n' :: rest) = removeSoftBreaks rest := by
  conv_lhs => unfold removeSoftBreaks
  simp

theorem rsb_cr_nil : removeSoftBreaks ['=', '\r'] = ['=', '\r'] := by
  conv_lhs => unfold removeSoftBreaks
  simp

theorem rsb_cr_ne (c : Char) (rest : List Char) (hc : ¬c = '\n') :
    removeSoftBreaks ('=' :: '\r' :: c :: rest) =
      '=' :: '\r' :: removeSoftBreaks (c :: rest) := by
  conv_lhs => unfold removeSoftBreaks
  simp [hc]

theorem rsb_eq_ne (b : Char) (rest : List Char) (hb : ¬b = '\n') (hb' : ¬b = '\r') :
    removeSoftBreaks ('=' :: b :: rest) = '=' :: removeSoftBreaks (b :: rest) := by
  conv_lhs => unfold removeSoftBreaks
  simp [hb, hb']

theorem dhe_nil : decodeHexEscapes [] = [] := by
  conv_lhs => unfold decodeHexEscapes

theorem dhe_cons_ne (a : Char) (rest : List Char) (ha : ¬a = '=') :
    decodeHexEscapes (a :: rest) = a :: decodeHexEscapes rest := by
  conv_lhs => unfold decodeHexEscapes
  simp [ha]

theorem dhe_eq_nil : decodeHexEscapes ['='] = ['='] := by
  conv_lhs => unfold decodeHexEscapes
  simp

theorem dhe_eq_one (h1 : Char) : decodeHexEscapes ['=', h1] = ['=', h1] := by
  conv_lhs => unfold decodeHexEscapes
  simp

theorem dhe_hex (h1 h2 : Char) (rest : List Char)
    (hh1 : isHexDigit h1 = true) (hh2 : isHexDigit h2 = true) :
    decodeHexEscapes ('=' :: h1 :: h2 :: rest) =
      Char.ofNat (hexVal h1 * 16 + hexVal h2) :: decodeHexEscapes rest := by
  conv_lhs => unfold decodeHexEscapes
  simp [hh1, hh2]

theorem dhe_nothex (h1 h2 : Char) (rest : List Char)
    (hh : ¬(isHexDigit h1 = true ∧ isHexDigit h2 = true)) :
    decodeHexEscapes ('=' :: h1 :: h2 :: rest) =
      '=' :: decodeHexEscapes (h1 :: h2 :: rest) := by
  conv_lhs => unfold decodeHexEscapes
  simp [hh]

theorem isHexDigit_eq (c : Char) :
    clsTest true false [('0', '9'), ('A', 'F')] c = isHexDigit c := rfl

theorem soft_match_lf (prev : Option Char) (rest : List Char) :
    matchAtPos false BullionVault.softBreakRE 0 prev ('=' :: '\n' :: rest) =
      some (rest, [none]) := rfl

theorem soft_match_crlf (prev : Option Char) (rest : List Char) :
    matchAtPos false BullionVault.softBreakRE 0 prev ('=' :: '\r' :: '\n' :: rest) =
      some (rest, [none]) := rfl

theorem soft_match_ne (prev : Option Char) (a : Char) (rest : List Char) (ha : ¬a = '=') :
    matchAtPos false BullionVault.softBreakRE 0 prev (a :: rest) = none := by
  simp [matchAtPos, reM, reMAux, BullionVault.softBreakRE, reSeq, charEqCi, ha]

theorem soft_match_eq_nil (prev : Option Char) :
    matchAtPos false BullionVault.softBreakRE 0 prev ['='] = none := rfl

theorem soft_match_eq_ne (prev : Option Char) (b : Char) (rest : List Char)
    (hb : ¬b = '\n') (hb' : ¬b = '\r') :
    matchAtPos false BullionVault.softBreakRE 0 prev ('=' :: b :: rest) = none := by
  simp [matchAtPos, reM, reMAux, BullionVault.softBreakRE, reSeq, charEqCi, hb, hb']

theorem soft_match_cr_nil (prev : Option Char) :
    matchAtPos false BullionVault.softBreakRE 0 prev ['=', '\r'] = none := rfl

theorem soft_match_cr_ne (prev : Option Char) (c : Char) (rest : List Char)
    (hc : ¬c = '\n') :
    matchAtPos false BullionVault.softBreakRE 0 prev ('=' :: '\r' :: c :: rest) = none := by
  simp [matchAtPos, reM, reMAux, BullionVault.softBreakRE, reSeq, charEqCi, hc]

theorem charToNat_ofNat_valid (m : Nat) (h : Nat.isValidChar m) :
    (Char.ofNat m).toNat = m := by
  unfold Char.ofNat
  rw [dif_pos h]
  rfl

theorem toUpper_toNat (a : Char) (h1 : 'a' ≤ a) (h2 : a ≤ 'z') :
    a.toUpper.toNat = a.toNat - 32 := by
  unfold Char.toUpper
  simp [show 97 ≤ a.toNat from h1, show a.toNat ≤ 122 from h2]
  rw [charToNat_ofNat_valid]
  left
  have ha : 97 ≤ a.toNat := h1
  have hb : a.toNat ≤ 122 := h2
  omega

theorem toLower_toNat (a : Char) (h1 : 'A' ≤ a) (h2 : a ≤ 'Z') :
    a.toLower.toNat = a.toNat + 32 := by
  unfold Char.toLower
  simp [show 65 ≤ a.toNat from h1, show a.toNat ≤ 90 from h2]
  rw [charToNat_ofNat_valid]
  left
  have ha : 65 ≤ a.toNat := h1
  have hb : a.toNat ≤ 90 := h2
  omega

theorem swapCase_eq_eq {a : Char} (h : swapCase a = '=') : a = '=' := by
  unfold swapCase at h
  split_ifs at h with h1 h2
  · exfalso
    have hn := congrArg Char.toNat h
    rw [toUpper_toNat a h1.1 h1.2, show ('=' : Char).toNat = 61 from rfl] at hn
    have ha : 97 ≤ a.toNat := h1.1
    omega
  · exfalso
    have hn := congrArg Char.toNat h
    rw [toLower_toNat a h2.1 h2.2, show ('=' : Char).toNat = 61 from rfl] at hn
    have ha : 65 ≤ a.toNat := h2.1
    omega
  · exact h

theorem charEqCi_eq_false (a : Char) (ha : ¬a = '=') : charEqCi true a '=' = false := by
  unfold charEqCi
  simp [ha]
  intro hs
  exact ha (swapCase_eq_eq hs)

theorem hex_match_some (prev : Option Char) (h1 h2 : Char) (rest : List Char)
    (hh1 : isHexDigit h1 = true) (hh2 : isHexDigit h2 = true) :
    matchAtPos true BullionVault.hexRE 1 prev ('=' :: h1 :: h2 :: rest) =
      some (rest, [none, some [h1, h2]]) := by
  simp [matchAtPos, reM, reMAux, BullionVault.hexRE, BullionVault.hexCls, reN,
        charEqCi, isHexDigit_eq, hh1, hh2]
  rw [show rest.length + 1 + 1 - rest.length = 2 from by omega]
  rfl

theorem hex_match_ne (prev : Option Char) (a : Char) (rest : List Char) (ha : ¬a = '=') :
    matchAtPos true BullionVault.hexRE 1 prev (a :: rest) = none := by
  simp [matchAtPos, reM, reMAux, BullionVault.hexRE, BullionVault.hexCls, reN,
        charEqCi_eq_false a ha]

theorem hex_match_eq_nil (prev : Option Char) :
    matchAtPos true BullionVault.hexRE 1 prev ['='] = none := rfl

theorem hex_match_eq_one (prev : Option Char) (h1 : Char) :
    matchAtPos true BullionVault.hexRE 1 prev ['=', h1] = none := by
  cases hcl : clsTest true false [('0', '9'), ('A', 'F')] h1 <;>
    simp [matchAtPos, reM, reMAux, BullionVault.hexRE, BullionVault.hexCls, reN,
          charEqCi, hcl]

theorem hex_match_nothex (prev : Option Char) (h1 h2 : Char) (rest : List Char)
    (hh : ¬(isHexDigit h1 = true ∧ isHexDigit h2 = true)) :
    matchAtPos true BullionVault.hexRE 1 prev ('=' :: h1 :: h2 :: rest) = none := by
  cases hc1 : isHexDigit h1 with
  | false =>
    simp [matchAtPos, reM, reMAux, BullionVault.hexRE, BullionVault.hexCls, reN,
          charEqCi, isHexDigit_eq, hc1]
  | true =>
    have hc2 : isHexDigit h2 = false := by
      cases hv : isHexDigit h2
      · rfl
      · exact absurd ⟨hc1, hv⟩ hh
    simp [matchAtPos, reM, reMAux, BullionVault.hexRE, BullionVault.hexCls, reN,
          charEqCi, isHexDigit_eq, hc1, hc2]

theorem replAllGo_nil (ci : Bool) (r : RE) (ng : Nat) (f : List Char → Caps → List Char)
    (fuel : Nat) (prev : Option Char) : replAllGo ci r ng f fuel prev [] = [] := by
  cases fuel <;> rfl

theorem constRepl_empty (l : List Char) (c : Caps) : constRepl "" l c = [] := rfl

theorem replSoft_spec (fuel : Nat) : ∀ (prev : Option Char) (s : List Char),
    s.length ≤ fuel →
    replAllGo false BullionVault.softBreakRE 0 (constRepl "") fuel prev s =
      removeSoftBreaks s := by
  induction fuel with
  | zero =>
    intro prev s hs
    have hnil : s = [] := List.eq_nil_of_length_eq_zero (Nat.le_zero.mp hs)
    subst hnil
    rw [replAllGo_nil, rsb_nil]
  | succ fuel ih =>
    intro prev s hs
    match s with
    | [] => rw [replAllGo_nil, rsb_nil]
    | a :: rest =>
      by_cases ha : a = '='
      · subst ha
        match rest with
        | [] =>
          simp only [replAllGo, soft_match_eq_nil]
          rw [replAllGo_nil, rsb_eq_nil]
        | b :: rest2 =>
          by_cases hb : b = '\n'
          · subst hb
            simp only [replAllGo, soft_match_lf]
            rw [if_pos (by simp only [List.length_cons]; omega)]
            simp only [constRepl_empty, List.nil_append, rsb_lf]
            exact ih _ rest2 (by simp at hs; (try simp); omega)
          · by_cases hb' : b = '\r'
            · subst hb'
              match rest2 with
              | [] =>
                simp only [replAllGo, soft_match_cr_nil]
                rw [ih _ ['\r'] (by simp at hs; (try simp); omega), rsb_cons_ne _ _ (by decide),
                    rsb_cr_nil, rsb_nil]
              | c :: rest3 =>
                by_cases hc : c = '\n'
                · subst hc
                  simp only [replAllGo, soft_match_crlf]
                  rw [if_pos (by simp only [List.length_cons]; omega)]
                  simp only [constRepl_empty, List.nil_append, rsb_crlf]
                  exact ih _ rest3 (by simp at hs; (try simp); omega)
                · simp only [replAllGo, soft_match_cr_ne _ _ _ hc]
                  rw [ih _ ('\r' :: c :: rest3) (by simp at hs; (try simp); omega),
                      rsb_cons_ne _ _ (by decide), rsb_cr_ne _ _ hc]
            · simp only [replAllGo, soft_match_eq_ne _ _ _ hb hb']
              rw [ih _ (b :: rest2) (by simp at hs; (try simp); omega), rsb_eq_ne _ _ hb hb']
      · simp only [replAllGo, soft_match_ne _ _ _ ha]
        rw [ih _ rest (by simp at hs; (try simp); omega), rsb_cons_ne _ _ ha]

theorem dhe_single (h1 : Char) : decodeHexEscapes [h1] = [h1] := by
  by_cases h : h1 = '='
  · subst h; exact dhe_eq_nil
  · rw [dhe_cons_ne _ _ h, dhe_nil]

theorem replHex_spec (fuel : Nat) : ∀ (prev : Option Char) (s : List Char),
    s.length ≤ fuel →
    replAllGo true BullionVault.hexRE 1 BullionVault.hexRepl fuel prev s =
      decodeHexEscapes s := by
  induction fuel with
  | zero =>
    intro prev s hs
    have hnil : s = [] := List.eq_nil_of_length_eq_zero (Nat.le_zero.mp hs)
    subst hnil
    rw [replAllGo_nil, dhe_nil]
  | succ fuel ih =>
    intro prev s hs
    match s with
    | [] => rw [replAllGo_nil, dhe_nil]
    | a :: rest =>
      by_cases ha : a = '='
      · subst ha
        match rest with
        | [] =>
          simp only [replAllGo, hex_match_eq_nil]
          rw [replAllGo_nil, dhe_eq_nil]
        | [h1] =>
          simp only [replAllGo, hex_match_eq_one]
          rw [ih _ [h1] (by simp at hs; (try simp); omega), dhe_single, dhe_eq_one]
        | h1 :: h2 :: rest2 =>
          by_cases hhex : isHexDigit h1 = true ∧ isHexDigit h2 = true
          · simp only [replAllGo, hex_match_some _ _ _ _ hhex.1 hhex.2]
            rw [if_pos (by simp only [List.length_cons]; omega)]
            simp only [BullionVault.hexRepl, List.getD, List.get?, Option.getD_some,
                       List.cons_append, List.nil_append]
            rw [ih _ rest2 (by simp at hs; (try simp); omega),
                dhe_hex _ _ _ hhex.1 hhex.2]
          · simp only [replAllGo, hex_match_nothex _ _ _ _ hhex]
            rw [ih _ (h1 :: h2 :: rest2) (by simp at hs; (try simp); omega),
                dhe_nothex _ _ _ hhex]
      · simp only [replAllGo, hex_match_ne _ _ _ ha]
        rw [ih _ rest (by simp at hs; (try simp); omega), dhe_cons_ne _ _ ha]

/-- C8: For every input string, the quoted-printable decoder — both
`decodeQuotedPrintable` of src/bullionvault.js and the one of the draft
src/unnamed/part_000 — first removes every soft line-break sequence (an
`=` immediately followed by a line feed, optionally with a carriage
return in between, the regex `=\r?\n`) and then replaces every remaining
`=XX` two-hex-digit escape (case-insensitively) with the character whose
code is `XX`; the two transforms are applied in that order, as witnessed
by the composition of `removeSoftBreaks` and then `decodeHexEscapes`. -/
theorem decodeQuotedPrintable_two_phase (s : String) :
    BullionVault.decodeQuotedPrintable (.str s) =
      .str ⟨decodeHexEscapes (removeSoftBreaks s.data)⟩ ∧
    Part000.decodeQuotedPrintable (.str s) =
      .ok (.str ⟨decodeHexEscapes (removeSoftBreaks s.data)⟩) := by
  have key : jsReplaceAll true BullionVault.hexRE 1 BullionVault.hexRepl
      (jsReplaceAll false BullionVault.softBreakRE 0 (constRepl "") s) =
      ⟨decodeHexEscapes (removeSoftBreaks s.data)⟩ := by
    unfold jsReplaceAll
    rw [replSoft_spec s.data.length none s.data le_rfl]
    show String.mk (replAllGo true BullionVault.hexRE 1 BullionVault.hexRepl
      (removeSoftBreaks s.data).length none (removeSoftBreaks s.data)) = _
    rw [replHex_spec (removeSoftBreaks s.data).length none (removeSoftBreaks s.data) le_rfl]
  constructor
  · simp only [BullionVault.decodeQuotedPrintable]
    by_cases h : s = ""
    · subst h
      rw [if_pos rfl]
      have hempty : decodeHexEscapes (removeSoftBreaks ("" : String).data) = [] := by
        rw [show ("" : String).data = ([] : List Char) from rfl, rsb_nil, dhe_nil]
      rw [hempty]
    · rw [if_neg h, key]
  · simp only [Part000.decodeQuotedPrintable]
    rw [key]
